import Mathlib

/-!
Verification of pdf-reader-mcp core algorithms.

This file gives a shallow embedding, in Lean 4, of the pure computational
cores of the repository's analysis functions, translated from the
TypeScript source:

* digital-signature field analysis (`analyzeSignatures`, pdflib service),
* reading-order text reconstruction (`extractPageText`, pdfjs service),
* tag-tree analysis (`buildTagNode`, `countTagElements`,
  `analyzeTagsFromDoc`, pdfjs service),
* font inventory (`analyzeFontsWithPdfLib`, pdflib service),
* structural diffing (`addDiff`, `compareStructure`, e2e helpers),
* tag and metadata validation (`validateTagged`, `validateMetadata`,
  e2e helpers),
* page-range parsing (`parsePageRange`, pdf-helpers).

PDF objects are modelled by an inductive type; indirect references are
resolved through an explicit context (reference number to object), the
way pdf-lib's `context.lookup` resolves `PDFRef`s.  JavaScript numbers
appearing only in comparisons and subtractions are modelled by `Int`
(text coordinates) or `ℚ` (media-box dimensions); machine floating
point plays no role in the comparisons these claims are about.
-/

/-- A PDF object, as discriminated by the pdf-lib wrapper code
(`PDFName`, `PDFString`, `PDFHexString`, `PDFRef`, `PDFDict`,
`PDFNumber`, `PDFArray`, plus "anything else"). -/
inductive PdfObj where
  | name (s : String)
  | str (s : String)
  | hexStr (s : String)
  | ref (n : Nat)
  | dict (entries : List (String × PdfObj))
  | num (n : Int)
  | arr (elems : List PdfObj)
  | other

/-- An indirect-object table: resolves reference numbers to objects
(pdf-lib `PDFContext.lookup`). -/
def PdfCtx : Type := List (Nat × PdfObj)

/-- Resolve a reference number in the context. -/
def ctxLookup (ctx : PdfCtx) (n : Nat) : Option PdfObj :=
  (ctx.find? (fun p => p.1 == n)).map (fun p => p.2)

/-- Raw dictionary access (`dict.get(PDFName.of(key))`): no resolution. -/
def dictGet (entries : List (String × PdfObj)) (key : String) : Option PdfObj :=
  (entries.find? (fun p => p.1 == key)).map (fun p => p.2)

/-- Resolve one level of indirection: a `PDFRef` is looked up in the
context, any other object is returned unchanged.  This is how pdf-lib's
`lookup`-style accessors chase a single reference hop. -/
def resolveObj (ctx : PdfCtx) : PdfObj → Option PdfObj
  | PdfObj.ref n => ctxLookup ctx n
  | o => some o

/-- `dict.lookupMaybe(PDFName.of(key), PDFName)`: get the entry, resolve
a possible reference, and keep it only when it is a name; return its
decoded text. -/
def lookupMaybeName (ctx : PdfCtx) (entries : List (String × PdfObj))
    (key : String) : Option String :=
  match dictGet entries key with
  | none => none
  | some o =>
    match resolveObj ctx o with
    | some (PdfObj.name s) => some s
    | _ => none

/-- `dict.lookupMaybe(PDFName.of(key), PDFDict)`: get the entry, resolve
a possible reference, and keep it only when it is a dictionary. -/
def lookupMaybeDict (ctx : PdfCtx) (entries : List (String × PdfObj))
    (key : String) : Option (List (String × PdfObj)) :=
  match dictGet entries key with
  | none => none
  | some o =>
    match resolveObj ctx o with
    | some (PdfObj.dict d) => some d
    | _ => none

/-- Resolution of a value that may be a `PDFRef` or already a `PDFDict`
(the explicit `instanceof` cascade used for `V`, font and descriptor
entries): a reference is looked up and kept when it resolves to a
dictionary, a direct dictionary is kept, anything else is dropped. -/
def asResolvedDict (ctx : PdfCtx) : PdfObj → Option (List (String × PdfObj))
  | PdfObj.ref n =>
    match ctxLookup ctx n with
    | some (PdfObj.dict d) => some d
    | _ => none
  | PdfObj.dict d => some d
  | _ => none

/-- `extractStringFromDict`: a `PDFString`, `PDFHexString` or `PDFName`
value decodes to its text; anything else (including absence) is null. -/
def extractStringFromDict (entries : List (String × PdfObj)) (key : String) :
    Option String :=
  match dictGet entries key with
  | some (PdfObj.str s) => some s
  | some (PdfObj.hexStr s) => some s
  | some (PdfObj.name s) => some s
  | _ => none

-- ─── Signature analysis (pdflib service, analyzeSignatures) ───

/-- One interactive-form field as handed back by
`acroForm.getAllFields()`: its dictionary plus the two name accessors
(`getFullyQualifiedName`, `getPartialName`). -/
structure AcroField where
  dict : List (String × PdfObj)
  fqName : Option String
  shortName : Option String

/-- The per-field record returned by the signature analysis. -/
structure SignatureFieldInfo where
  fieldName : String
  isSigned : Bool
  signerName : Option String
  reason : Option String
  location : Option String
  contactInfo : Option String
  signingTime : Option String
  filter : Option String
  subFilter : Option String
deriving Repr, DecidableEq

/-- The result record of the signature analysis. -/
structure SignaturesAnalysis where
  totalFields : Nat
  signedCount : Nat
  unsignedCount : Nat
  fields : List SignatureFieldInfo
  note : String
deriving Repr, DecidableEq

/-- Body of the field loop in `analyzeSignatures`: fields whose `FT`
name is not exactly `Sig` are skipped; for signature fields, `isSigned`
is set as soon as the raw `V` entry exists, and the signer metadata is
filled in only when `V` also resolves to a dictionary. -/
def processSigField (ctx : PdfCtx) (field : AcroField) :
    Option SignatureFieldInfo :=
  match lookupMaybeName ctx field.dict "FT" with
  | some ft =>
    if ft = "Sig" then
      let fieldName := (field.fqName.orElse (fun _ => field.shortName)).getD "(unnamed)"
      let vObj := dictGet field.dict "V"
      match vObj with
      | none =>
        some { fieldName, isSigned := false, signerName := none,
               reason := none, location := none, contactInfo := none,
               signingTime := none, filter := none, subFilter := none }
      | some v =>
        match asResolvedDict ctx v with
        | some sigDict =>
          some { fieldName, isSigned := true,
                 signerName := extractStringFromDict sigDict "Name",
                 reason := extractStringFromDict sigDict "Reason",
                 location := extractStringFromDict sigDict "Location",
                 contactInfo := extractStringFromDict sigDict "ContactInfo",
                 signingTime := extractStringFromDict sigDict "M",
                 filter := lookupMaybeName ctx sigDict "Filter",
                 subFilter := lookupMaybeName ctx sigDict "SubFilter" }
        | none =>
          some { fieldName, isSigned := true, signerName := none,
                 reason := none, location := none, contactInfo := none,
                 signingTime := none, filter := none, subFilter := none }
    else none
  | none => none

/-- `analyzeSignatures`, with the document abstracted to its context and
the AcroForm lookup result (`none` models `catalog.getAcroForm()`
returning nothing). -/
def analyzeSignatures (ctx : PdfCtx) (acroForm : Option (List AcroField)) :
    SignaturesAnalysis :=
  match acroForm with
  | none =>
    { totalFields := 0, signedCount := 0, unsignedCount := 0, fields := [],
      note := "No AcroForm found in the document." }
  | some allFields =>
    let fields := allFields.filterMap (processSigField ctx)
    let signedCount := (fields.filter (fun f => f.isSigned)).length
    { totalFields := fields.length,
      signedCount,
      unsignedCount := fields.length - signedCount,
      fields,
      note := "Cryptographic signature verification is not performed. Only field structure is inspected." }

-- ─── Reading-order text reconstruction (pdfjs service, extractPageText) ───

/-- A positioned text run: the string plus the translation components of
its transform (`transform[4]` horizontal, `transform[5]` vertical).
JavaScript numbers are modelled by `Int`; the algorithm only subtracts
and compares them. -/
structure TextRun where
  str : String
  x : Int
  y : Int
deriving Repr, DecidableEq

/-- The sort comparator of `extractPageText`, turned into the boolean
"may come first" relation used by a stable sort: the comparator returns
`by - ay` when the vertical distance exceeds 2, else `ax - bx`, and a
stable sort places `a` before `b` exactly when the comparator is ≤ 0. -/
def runLe (a b : TextRun) : Bool :=
  let yDiff := b.y - a.y
  if 2 < |yDiff| then decide (yDiff ≤ 0) else decide (a.x - b.x ≤ 0)

/-- The line-grouping loop of `extractPageText`: walk the sorted runs,
starting a new line whenever the vertical coordinate moves by more than
2 units from the previous run; a line's strings are joined by single
spaces.  State: finished lines, current line (reversed), previous `y`. -/
def groupLines : List TextRun → List String → List String → Int → List String
  | [], lines, currentLine, _ =>
    if currentLine.isEmpty then lines.reverse
    else (((currentLine.reverse).intersperse " ").foldl String.append "" :: lines).reverse
  | item :: rest, lines, currentLine, lastY =>
    if 2 < |item.y - lastY| then
      let lines' :=
        if currentLine.isEmpty then lines
        else ((currentLine.reverse).intersperse " ").foldl String.append "" :: lines
      groupLines rest lines' [item.str] item.y
    else
      groupLines rest lines (item.str :: currentLine) item.y

/-- `extractPageText`: empty input gives the empty string; otherwise
sort by the comparator (stable sort, as JavaScript `Array.sort`), group
into lines, and join the lines by newlines. -/
def extractPageText (items : List TextRun) : String :=
  match items with
  | [] => ""
  | first :: _ =>
    let sorted := (items.mergeSort runLe)
    let firstY := (sorted.headD first).y
    let lines := groupLines sorted [] [] firstY
    ((lines.intersperse "\n").foldl String.append "")

/-- Modelled from the spec (§4.1): runs are sorted primarily by
descending vertical coordinate, secondarily — when the two vertical
coordinates differ by at most 2 units — by ascending horizontal
coordinate. -/
def specRunLe (a b : TextRun) : Bool :=
  if |a.y - b.y| ≤ 2 then decide (a.x ≤ b.x) else decide (b.y ≤ a.y)

/-- Modelled from the spec (§4.1): after sorting, group consecutive runs
into lines, starting a new line whenever the vertical coordinate changes
by more than 2 units from the previous run; join a line's run strings
with a single space and lines with a newline; zero runs give the empty
string. -/
def specExtractPageText (items : List TextRun) : String :=
  match items with
  | [] => ""
  | first :: _ =>
    let sorted := (items.mergeSort specRunLe)
    let firstY := (sorted.headD first).y
    let lines := groupLines sorted [] [] firstY
    ((lines.intersperse "\n").foldl String.append "")

-- ─── Tag-tree analysis (pdfjs service) ───

/-- A child of a raw structure-tree node, as discriminated by the
`'role' in child` test of `buildTagNode`: either a nested element
(carrying an optional role and its own children) or a marked-content
item. -/
inductive StructChild where
  | elem (role : Option String) (children : List StructChild)
  | content

/-- A raw per-page structure tree (`page.getStructTree()` result): an
optional role plus children. -/
structure StructTreeRootLike where
  role : Option String
  children : List StructChild

/-- A node of the analysed tag tree. -/
structure TagNode where
  role : String
  children : List TagNode
  contentCount : Nat

/-- A role-count map, modelled as an association list with the
JavaScript-object update `rc[role] = (rc[role] ?? 0) + n` (keys stay
unique and keep insertion order). -/
def RoleCounts : Type := List (String × Nat)

/-- `rc[role] ?? 0`. -/
def rcGet (rc : RoleCounts) (k : String) : Nat :=
  ((rc.find? (fun p => p.1 == k)).map (fun p => p.2)).getD 0

/-- `role in rc` (key presence, used by the `!== undefined` tests). -/
def rcHas (rc : RoleCounts) (k : String) : Bool :=
  (rc.find? (fun p => p.1 == k)).isSome

/-- Set a key, replacing an existing binding and otherwise appending. -/
def rcSet : RoleCounts → String → Nat → RoleCounts
  | [], k, v => [(k, v)]
  | (k', v') :: rest, k, v =>
    if k' == k then (k, v) :: rest else (k', v') :: rcSet rest k v

/-- `rc[k] = (rc[k] ?? 0) + n`. -/
def rcAdd (rc : RoleCounts) (k : String) (n : Nat) : RoleCounts :=
  rcSet rc k (rcGet rc k + n)

/-- Merge a local role-count map into a global one by summing counts
(the aggregation loop of `analyzeTagsFromDoc`). -/
def rcMerge (rc : RoleCounts) (local_ : RoleCounts) : RoleCounts :=
  local_.foldl (fun acc p => rcAdd acc p.1 p.2) rc

/-- Sum of all counts in a role-count map. -/
def rcTotal (rc : RoleCounts) : Nat :=
  (rc.map (fun p => p.2)).sum

mutual
/-- `buildTagNode`: record the node's role (defaulting to `Unknown`) in
the role-count map, then walk the children, recursing into elements and
counting marked-content items. -/
def buildTagNode (role : Option String) (children : List StructChild)
    (rc : RoleCounts) : TagNode × RoleCounts :=
  let r := role.getD "Unknown"
  let rc1 := rcAdd rc r 1
  let (kids, contentCount, rc2) := buildTagChildren children rc1
  ({ role := r, children := kids, contentCount }, rc2)

/-- The child loop of `buildTagNode`. -/
def buildTagChildren : List StructChild → RoleCounts →
    (List TagNode × Nat × RoleCounts)
  | [], rc => ([], 0, rc)
  | StructChild.elem role cs :: rest, rc =>
    let (t, rc1) := buildTagNode role cs rc
    let (ts, cc, rc2) := buildTagChildren rest rc1
    (t :: ts, cc, rc2)
  | StructChild.content :: rest, rc =>
    let (ts, cc, rc1) := buildTagChildren rest rc
    (ts, cc + 1, rc1)
end

mutual
/-- `countTagElements`: one for the node itself plus the counts of all
(element) children. -/
def countTagElements : TagNode → Nat
  | TagNode.mk _ children _ => 1 + countTagElementsList children

/-- The child loop of `countTagElements` (`count += countTagElements(child)`). -/
def countTagElementsList : List TagNode → Nat
  | [] => 0
  | c :: cs => countTagElements c + countTagElementsList cs
end

mutual
/-- `getTagDepth`: 1 for a childless node, otherwise 1 plus the maximum
child depth. -/
def getTagDepth : TagNode → Nat
  | TagNode.mk _ [] _ => 1
  | TagNode.mk _ (c :: cs) _ => getTagDepthMax (c :: cs) 0 + 1

/-- The child loop of `getTagDepth` (`max = Math.max(max, getTagDepth(child))`). -/
def getTagDepthMax : List TagNode → Nat → Nat
  | [], acc => acc
  | c :: cs, acc => getTagDepthMax cs (Nat.max acc (getTagDepth c))
end

/-- The per-page task of `analyzeTagsFromDoc`: a page either provides no
structure tree (absent or failed — both degrade to nothing) or a tree,
which is walked with a fresh local role-count map. -/
def pageTagResult (tree : Option StructTreeRootLike) :
    Option (TagNode × RoleCounts) :=
  tree.map (fun t => buildTagNode t.role t.children [])

/-- The result record of the tag analysis. -/
structure TagsAnalysis where
  isTagged : Bool
  rootTag : Option TagNode
  maxDepth : Nat
  totalElements : Nat
  roleCounts : RoleCounts

/-- The aggregation loop of `analyzeTagsFromDoc`, folding the per-page
results in page order. -/
def aggregateTagPages :
    List (Option (TagNode × RoleCounts)) →
    (RoleCounts × Nat × Nat × List TagNode) →
    (RoleCounts × Nat × Nat × List TagNode)
  | [], acc => acc
  | none :: rest, acc => aggregateTagPages rest acc
  | some (node, localRc) :: rest, (rc, totalElements, maxDepth, rootChildren) =>
    aggregateTagPages rest
      (rcMerge rc localRc,
       totalElements + countTagElements node,
       Nat.max maxDepth (getTagDepth node),
       rootChildren ++ [node])

/-- `analyzeTagsFromDoc`, with the document abstracted to its tagged
flag (`markInfo?.Marked === true`) and the list of per-page structure
trees. -/
def analyzeTagsFromDoc (isTagged : Bool)
    (pageTrees : List (Option StructTreeRootLike)) : TagsAnalysis :=
  if !isTagged then
    { isTagged := false, rootTag := none, maxDepth := 0,
      totalElements := 0, roleCounts := [] }
  else
    let pageResults := pageTrees.map pageTagResult
    let (roleCounts, totalElements, maxDepth0, rootChildren) :=
      aggregateTagPages pageResults ([], 0, 0, [])
    let rootTag : Option TagNode :=
      if rootChildren.length > 0 then
        some { role := "StructTreeRoot", children := rootChildren,
               contentCount := 0 }
      else none
    let maxDepth := if rootTag.isSome then maxDepth0 + 1 else maxDepth0
    { isTagged := true, rootTag, maxDepth, totalElements, roleCounts }

-- ─── Font inventory (pdflib service, analyzeFontsWithPdfLib) ───

/-- A font record of the inventory. -/
structure FontInfo where
  name : String
  type : String
  encoding : Option String
  isEmbedded : Bool
  isSubset : Bool
  pagesUsed : List Nat
deriving Repr, DecidableEq

/-- A page, abstracted to its (already resolved) resource dictionary
(`pageNode.Resources()` — absent when the page has none). -/
structure PageNode where
  resources : Option (List (String × PdfObj))

/-- `dict.has(PDFName.of(key))`. -/
def dictHas (entries : List (String × PdfObj)) (key : String) : Bool :=
  (entries.find? (fun p => p.1 == key)).isSome

/-- ASCII uppercase test for the subset-name convention. -/
def isUpperAZ (c : Char) : Bool := 'A' ≤ c && c ≤ 'Z'

/-- The subset-name test `/^[A-Z]{6}\+/`. -/
def isSubsetName (s : String) : Bool :=
  match s.toList with
  | a :: b :: c :: d :: e :: f :: g :: _ =>
    isUpperAZ a && isUpperAZ b && isUpperAZ c && isUpperAZ d &&
    isUpperAZ e && isUpperAZ f && g == '+'
  | _ => false

/-- Resolution of one `Font` sub-dictionary entry, following the body of
the inner loop of `analyzeFontsWithPdfLib`: resolve the entry to a font
dictionary (skipping entries that resolve to anything else), then read
subtype, base-font name (falling back to the dictionary key), encoding
(kept only when the raw entry is a name), embedding (descriptor resolved
one hop, then the three `FontFile` keys) and the subset convention.  The
`pagesUsed` list is filled in at insertion time. -/
def resolveFontEntry (ctx : PdfCtx) (fontKey : String) (fontRefOrDict : PdfObj) :
    Option FontInfo :=
  match asResolvedDict ctx fontRefOrDict with
  | none => none
  | some actualFont =>
    let subtype := (lookupMaybeName ctx actualFont "Subtype").getD "Unknown"
    let baseFontName := (lookupMaybeName ctx actualFont "BaseFont").getD fontKey
    let encoding :=
      match dictGet actualFont "Encoding" with
      | some (PdfObj.name s) => some s
      | _ => none
    let isEmbedded :=
      match dictGet actualFont "FontDescriptor" with
      | none => false
      | some descriptorRef =>
        match asResolvedDict ctx descriptorRef with
        | none => false
        | some descriptor =>
          dictHas descriptor "FontFile" || dictHas descriptor "FontFile2" ||
          dictHas descriptor "FontFile3"
    some { name := baseFontName, type := subtype, encoding, isEmbedded,
           isSubset := isSubsetName baseFontName, pagesUsed := [] }

/-- The font map, keyed by base-font name, in insertion order. -/
def FontMap : Type := List (String × FontInfo)

/-- The map update of the inner loop: an existing record for the name
gains the page number if it is not already recorded; otherwise a new
record is appended with `pagesUsed = [pageNum]`. -/
def fontMapUpdate : FontMap → FontInfo → Nat → FontMap
  | [], fi, p => [(fi.name, { fi with pagesUsed := [p] })]
  | (k, info) :: rest, fi, p =>
    if k == fi.name then
      (k, if info.pagesUsed.contains p then info
          else { info with pagesUsed := info.pagesUsed ++ [p] }) :: rest
    else (k, info) :: fontMapUpdate rest fi p

/-- One step of the inner loop over a page's font entries. -/
def processFontEntry (ctx : PdfCtx) (pageNum : Nat) (m : FontMap)
    (entry : String × PdfObj) : FontMap :=
  match resolveFontEntry ctx entry.1 entry.2 with
  | none => m
  | some fi => fontMapUpdate m fi pageNum

/-- The font entries a page contributes: absent resources or an absent
(or non-dictionary) `Font` sub-dictionary contribute nothing
(`continue`). -/
def pageFontEntries (ctx : PdfCtx) (page : PageNode) : List (String × PdfObj) :=
  match page.resources with
  | none => []
  | some resources =>
    match lookupMaybeDict ctx resources "Font" with
    | none => []
    | some fontDict => fontDict

/-- The inner loop of `analyzeFontsWithPdfLib` for one page. -/
def processFontPage (ctx : PdfCtx) (pageNum : Nat) (page : PageNode)
    (m : FontMap) : FontMap :=
  (pageFontEntries ctx page).foldl (processFontEntry ctx pageNum) m

/-- The outer page loop (`pageNum = pageIdx + 1`). -/
def scanFontPages (ctx : PdfCtx) : List PageNode → Nat → FontMap → FontMap
  | [], _, m => m
  | page :: rest, pageIdx, m =>
    scanFontPages ctx rest (pageIdx + 1)
      (processFontPage ctx (pageIdx + 1) page m)

/-- The font-analysis result. -/
structure FontAnalysisResult where
  fontMap : FontMap
  pagesScanned : Nat

/-- `analyzeFontsWithPdfLib`, with the document abstracted to its
context and page list. -/
def analyzeFontsWithPdfLib (ctx : PdfCtx) (pages : List PageNode) :
    FontAnalysisResult :=
  { fontMap := scanFontPages ctx pages 0 [], pagesScanned := pages.length }

/-- The resolved base-font names a font-entry list records. -/
def entryFontNames (ctx : PdfCtx) (entries : List (String × PdfObj)) :
    List String :=
  entries.filterMap
    (fun e => (resolveFontEntry ctx e.1 e.2).map (fun fi => fi.name))

/-- The resolved base-font names a page uses (the names recorded by the
inner loop when it visits this page). -/
def pageFontNames (ctx : PdfCtx) (page : PageNode) : List String :=
  entryFontNames ctx (pageFontEntries ctx page)

/-- Reference definition: the 1-based numbers of the pages (listed from
index `pageIdx`) that use a given base-font name, each page at most
once, in ascending page order. -/
def pagesUsingFrom (ctx : PdfCtx) (name : String) :
    List PageNode → Nat → List Nat
  | [], _ => []
  | page :: rest, pageIdx =>
    (if (pageFontNames ctx page).contains name then [pageIdx + 1] else []) ++
      pagesUsingFrom ctx name rest (pageIdx + 1)

/-- Pages-used lookup in a font map. -/
def fontMapPages (m : FontMap) (name : String) : Option (List Nat) :=
  ((m.find? (fun p => p.1 == name)).map (fun p => p.2.pagesUsed))

-- ─── Structural diff (e2e helpers, compareStructure / addDiff) ───

/-- One structural diff entry. -/
structure StructureDiffEntry where
  property : String
  file1Value : String
  file2Value : String
  status : String
deriving Repr, DecidableEq

/-- `addDiff`: push an entry whose status is `match` exactly when the
two stringified values are equal. -/
def addDiff (diffs : List StructureDiffEntry)
    (property val1 val2 : String) : List StructureDiffEntry :=
  diffs ++ [{ property, file1Value := val1, file2Value := val2,
              status := if val1 = val2 then "match" else "differ" }]

/-- A catalog entry summary (key, type, rendered value). -/
structure CatalogEntry where
  key : String
  type : String
  value : String

/-- Object statistics of a structure analysis (the `byType` breakdown is
not consumed by the differ and is omitted). -/
structure ObjectStats where
  totalObjects : Nat
  streamCount : Nat

/-- A sampled media box, rounded to hundredths by `analyzeStructure`;
modelled as exact rationals. -/
structure MediaBoxSample where
  page : Nat
  width : ℚ
  height : ℚ

/-- Page-tree information of a structure analysis. -/
structure PageTreeInfo where
  totalPages : Nat
  mediaBoxSamples : List MediaBoxSample

/-- The structure-analysis record consumed by the differ. -/
structure StructureAnalysis where
  catalog : List CatalogEntry
  pageTree : PageTreeInfo
  objectStats : ObjectStats
  isEncrypted : Bool
  pdfVersion : Option String

/-- The metadata record (`getMetadata`), restricted to the fields the
differ and the metadata validator consume.  String-valued entries are
`none` when absent or empty (`asStringOrNull`). -/
structure PdfMetadata where
  title : Option String
  author : Option String
  subject : Option String
  keywords : Option String
  creator : Option String
  producer : Option String
  creationDate : Option String
  modificationDate : Option String
  pdfVersion : Option String
  isTagged : Bool
  isEncrypted : Bool
  hasSignatures : Bool
  fileSize : Nat

/-- JavaScript `String(boolean)`. -/
def jsStringOfBool (b : Bool) : String := if b then "true" else "false"

/-- Decimal rendering of an exact rational.  Stands in for JavaScript
number-to-string conversion of the rounded media-box dimensions; only
string equality of the rendered values matters downstream. -/
def qRender (q : ℚ) : String := toString q

/-- `toFixed(1)` of the exact quotient `bytes / k` (`k` a power of two,
so the quotient is an exact binary fraction and rounding to the nearest
tenth, ties up, matches the JavaScript result). -/
def toFixed1Div (bytes k : Nat) : String :=
  let m := (20 * bytes + k) / (2 * k)
  toString (m / 10) ++ "." ++ toString (m % 10)

/-- `formatFileSize` (utils/formatter). -/
def formatFileSize (bytes : Nat) : String :=
  if bytes < 1024 then toString bytes ++ " B"
  else if bytes < 1024 * 1024 then toFixed1Div bytes 1024 ++ " KB"
  else toFixed1Div bytes (1024 * 1024) ++ " MB"

/-- The structure-comparison result (`fontComparison` inlined as three
name lists). -/
structure StructureComparison where
  file1 : String
  file2 : String
  diffs : List StructureDiffEntry
  onlyInFile1 : List String
  onlyInFile2 : List String
  inBoth : List String
  summary : String

/-- `compareStructure`, with the two documents abstracted to their
already-computed structure analyses, font inventories, metadata and
basenames.  The eleven diff entries are emitted in the fixed source
order. -/
def compareStructure (file1 file2 : String)
    (struct1 struct2 : StructureAnalysis)
    (fonts1 fonts2 : FontAnalysisResult)
    (meta1 meta2 : PdfMetadata) : StructureComparison :=
  let diffs : List StructureDiffEntry := []
  let diffs := addDiff diffs "Page Count"
    (toString struct1.pageTree.totalPages) (toString struct2.pageTree.totalPages)
  let diffs := addDiff diffs "PDF Version"
    (struct1.pdfVersion.getD "Unknown") (struct2.pdfVersion.getD "Unknown")
  let diffs := addDiff diffs "Encrypted"
    (jsStringOfBool struct1.isEncrypted) (jsStringOfBool struct2.isEncrypted)
  let diffs := addDiff diffs "Tagged"
    (jsStringOfBool meta1.isTagged) (jsStringOfBool meta2.isTagged)
  let diffs := addDiff diffs "Total Objects"
    (toString struct1.objectStats.totalObjects) (toString struct2.objectStats.totalObjects)
  let diffs := addDiff diffs "Stream Count"
    (toString struct1.objectStats.streamCount) (toString struct2.objectStats.streamCount)
  let dim1 := struct1.pageTree.mediaBoxSamples.head?
  let dim2 := struct2.pageTree.mediaBoxSamples.head?
  let diffs := addDiff diffs "Page 1 Dimensions (pt)"
    (match dim1 with
     | some d => qRender d.width ++ " x " ++ qRender d.height
     | none => "N/A")
    (match dim2 with
     | some d => qRender d.width ++ " x " ++ qRender d.height
     | none => "N/A")
  let diffs := addDiff diffs "File Size"
    (formatFileSize meta1.fileSize) (formatFileSize meta2.fileSize)
  let diffs := addDiff diffs "Catalog Entries"
    (toString struct1.catalog.length) (toString struct2.catalog.length)
  let diffs := addDiff diffs "Has Signatures"
    (jsStringOfBool meta1.hasSignatures) (jsStringOfBool meta2.hasSignatures)
  let fontNames1 := fonts1.fontMap.map (fun p => p.1)
  let fontNames2 := fonts2.fontMap.map (fun p => p.1)
  let onlyInFile1 := fontNames1.filter (fun f => !fontNames2.contains f)
  let onlyInFile2 := fontNames2.filter (fun f => !fontNames1.contains f)
  let inBoth := fontNames1.filter (fun f => fontNames2.contains f)
  let diffs := addDiff diffs "Total Fonts"
    (toString fontNames1.length) (toString fontNames2.length)
  let matchCount := (diffs.filter (fun d => d.status == "match")).length
  let diffCount := (diffs.filter (fun d => d.status == "differ")).length
  let summary :=
    if diffCount = 0 then
      "All " ++ toString matchCount ++ " properties match between the two PDFs."
    else
      toString diffCount ++ " difference(s) found out of " ++
        toString diffs.length ++ " properties compared."
  { file1, file2, diffs, onlyInFile1, onlyInFile2, inBoth, summary }

-- ─── Validation (e2e helpers, validateTagged / validateMetadata) ───

/-- A validation issue. -/
structure ValidationIssue where
  severity : String
  code : String
  message : String
  details : Option String
deriving Repr, DecidableEq

/-- The mutable counters and issue list threaded through a validation
run. -/
structure VState where
  totalChecks : Nat
  passed : Nat
  failed : Nat
  warnings : Nat
  issues : List ValidationIssue
deriving Repr, DecidableEq

/-- `totalChecks++` at the top of a check. -/
def vCheck (s : VState) : VState :=
  { s with totalChecks := s.totalChecks + 1 }

/-- `passed++; issues.push(i)`. -/
def vPass (s : VState) (i : ValidationIssue) : VState :=
  { s with passed := s.passed + 1, issues := s.issues ++ [i] }

/-- `failed++; issues.push(i)`. -/
def vFail (s : VState) (i : ValidationIssue) : VState :=
  { s with failed := s.failed + 1, issues := s.issues ++ [i] }

/-- `warnings++; issues.push(i)`. -/
def vWarn (s : VState) (i : ValidationIssue) : VState :=
  { s with warnings := s.warnings + 1, issues := s.issues ++ [i] }

/-- The result of a tag-validation run. -/
structure TaggedValidation where
  isTagged : Bool
  totalChecks : Nat
  passed : Nat
  failed : Nat
  warnings : Nat
  issues : List ValidationIssue
  summary : String
deriving Repr, DecidableEq

/-- The heading-level gap test of check 4: subsequent levels must never
skip (`headingLevels[i] - headingLevels[i-1] > 1` breaks). -/
def headingNoGapFrom : Nat → List Nat → Bool
  | _, [] => true
  | prev, l :: rest => decide (l - prev ≤ 1) && headingNoGapFrom l rest

/-- `isSequential` of check 4: the first level must be 1 and no level
may be skipped. -/
def headingSequential : List Nat → Bool
  | [] => true
  | first :: rest => first == 1 && headingNoGapFrom first rest

/-- Render a heading-level list as in the check-4 messages. -/
def headingListString (levels : List Nat) : String :=
  String.intercalate ", " (levels.map (fun l => "H" ++ toString l))

/-- Checks 2 through 8 of `validateTagged`, run in order on the state
left by check 1. -/
def tagChecks2to8 (ta : TagsAnalysis) (imageCount : Nat) (s0 : VState) :
    VState :=
  -- Check 2: structure tree root exists
  let s := vCheck s0
  let s :=
    match ta.rootTag with
    | none =>
      vFail s ⟨"error", "TAG-002", "No structure tree root found",
        some "The document is marked as tagged but has no StructTreeRoot."⟩
    | some _ =>
      vPass s ⟨"info", "TAG-002", "Structure tree root exists", none⟩
  -- Check 3: Document-level root tag
  let s := vCheck s
  let s :=
    if !rcHas ta.roleCounts "Document" then
      vWarn s ⟨"warning", "TAG-003", "No Document root tag found",
        some "PDF/UA recommends a single Document tag as the root of the structure tree."⟩
    else
      vPass s ⟨"info", "TAG-003", "Document root tag present", none⟩
  -- Check 4: heading hierarchy
  let s := vCheck s
  let headingLevels :=
    ((List.range 6).map (fun i => i + 1)).filter
      (fun i => rcGet ta.roleCounts ("H" ++ toString i) != 0)
  let hasGenericH := rcHas ta.roleCounts "H"
  let s :=
    if headingLevels.isEmpty && !hasGenericH then
      vWarn s ⟨"warning", "TAG-004", "No heading tags found",
        some "Document has no heading tags (H1-H6 or H). Headings are recommended for document navigation."⟩
    else if !headingLevels.isEmpty then
      if !headingSequential headingLevels then
        vWarn s ⟨"warning", "TAG-004",
          "Heading hierarchy has gaps: " ++ headingListString headingLevels,
          some "Heading levels should be sequential without skipping levels (e.g., H1 → H2 → H3)."⟩
      else
        vPass s ⟨"info", "TAG-004",
          "Heading hierarchy is sequential: " ++ headingListString headingLevels, none⟩
    else
      vPass s ⟨"info", "TAG-004", "Generic H tags used for headings", none⟩
  -- Check 5: Figure tags for images
  let s := vCheck s
  let figureCount := rcGet ta.roleCounts "Figure"
  let s :=
    if imageCount > 0 && figureCount == 0 then
      vFail s ⟨"error", "TAG-005",
        "Document has " ++ toString imageCount ++ " image(s) but no Figure tags",
        some "Images must be tagged as Figure with appropriate alt text for PDF/UA compliance."⟩
    else if imageCount > 0 && figureCount < imageCount then
      vWarn s ⟨"warning", "TAG-005",
        toString imageCount ++ " image(s) found but only " ++
          toString figureCount ++ " Figure tag(s)",
        some "Some images may not be properly tagged. Decorative images should be marked as artifacts."⟩
    else if imageCount > 0 then
      vPass s ⟨"info", "TAG-005",
        toString figureCount ++ " Figure tag(s) for " ++ toString imageCount ++ " image(s)",
        none⟩
    else
      vPass s ⟨"info", "TAG-005",
        "No images detected; Figure tag check not applicable", none⟩
  -- Check 6: paragraph tags
  let s := vCheck s
  let s :=
    if !rcHas ta.roleCounts "P" then
      vWarn s ⟨"warning", "TAG-006", "No P (Paragraph) tags found",
        some "Text content should be wrapped in P tags for proper reading order."⟩
    else
      vPass s ⟨"info", "TAG-006",
        toString (rcGet ta.roleCounts "P") ++ " Paragraph tag(s) found", none⟩
  -- Check 7: minimum element count
  let s := vCheck s
  let s :=
    if ta.totalElements < 2 then
      vWarn s ⟨"warning", "TAG-007",
        "Only " ++ toString ta.totalElements ++ " structure element(s) found",
        some "A properly tagged document should have multiple structure elements reflecting its content."⟩
    else
      vPass s ⟨"info", "TAG-007",
        toString ta.totalElements ++ " structure elements found", none⟩
  -- Check 8: table tags
  let s := vCheck s
  let tableCount := rcGet ta.roleCounts "Table"
  let trCount := rcGet ta.roleCounts "TR"
  let tdCount := rcGet ta.roleCounts "TD"
  let thCount := rcGet ta.roleCounts "TH"
  let s :=
    if tableCount > 0 then
      if trCount == 0 then
        vWarn s ⟨"warning", "TAG-008",
          toString tableCount ++ " Table tag(s) but no TR (Table Row) tags",
          some "Tables should contain TR, TH, and TD tags for proper structure."⟩
      else if thCount == 0 then
        vWarn s ⟨"warning", "TAG-008",
          "Table has " ++ toString trCount ++ " row(s) but no TH (Table Header) tags",
          some "PDF/UA requires tables to have header cells (TH) for accessibility."⟩
      else
        vPass s ⟨"info", "TAG-008",
          "Table structure: " ++ toString tableCount ++ " table(s), " ++
            toString trCount ++ " row(s), " ++ toString thCount ++
            " header(s), " ++ toString tdCount ++ " cell(s)", none⟩
    else
      vPass s ⟨"info", "TAG-008",
        "No Table tags found; table check not applicable", none⟩
  s

/-- The severity rollup of `validateTagged`. -/
def tagSummary (totalChecks passed : Nat) (issues : List ValidationIssue) :
    String :=
  let errorCount := (issues.filter (fun i => i.severity == "error")).length
  let warnCount := (issues.filter (fun i => i.severity == "warning")).length
  if errorCount = 0 && warnCount = 0 then
    "All " ++ toString totalChecks ++
      " checks passed. Document appears well-structured for PDF/UA compliance."
  else if errorCount = 0 then
    toString passed ++ "/" ++ toString totalChecks ++ " checks passed with " ++
      toString warnCount ++
      " warning(s). Review warnings for full PDF/UA compliance."
  else
    toString passed ++ "/" ++ toString totalChecks ++ " checks passed, " ++
      toString errorCount ++ " error(s), " ++ toString warnCount ++
      " warning(s). Critical issues must be resolved for PDF/UA compliance."

/-- `validateTagged`, with the document abstracted to its tag analysis
and image count.  Check 1 short-circuits on an untagged document; the
tagged branch emits the check-1 info issue and runs checks 2 to 8. -/
def validateTagged (tagsAnalysis : TagsAnalysis) (imageCount : Nat) :
    TaggedValidation :=
  if !tagsAnalysis.isTagged then
    { isTagged := false, totalChecks := 1, passed := 0, failed := 1,
      warnings := 0,
      issues :=
        [⟨"error", "TAG-001", "Document is not tagged",
          some "The PDF does not have the Marked flag set in the MarkInfo dictionary. Tagged PDF is required for PDF/UA compliance."⟩],
      summary := "Document is not tagged. PDF/UA validation cannot proceed." }
  else
    let s0 : VState :=
      vPass (vCheck ⟨0, 0, 0, 0, []⟩)
        ⟨"info", "TAG-001", "Document is marked as tagged", none⟩
    let s := tagChecks2to8 tagsAnalysis imageCount s0
    { isTagged := true, totalChecks := s.totalChecks, passed := s.passed,
      failed := s.failed, warnings := s.warnings, issues := s.issues,
      summary := tagSummary s.totalChecks s.passed s.issues }

-- ─── Metadata validation (e2e helpers, validateMetadata) ───

/-- The ASCII apostrophe used by the PDF date syntax. -/
def aposChar : Char := Char.ofNat 39

/-- Consume exactly `n` decimal digits. -/
def takeDigits : Nat → List Char → Option (List Char)
  | 0, cs => some cs
  | _ + 1, [] => none
  | n + 1, c :: cs => if c.isDigit then takeDigits n cs else none

/-- The timezone tail of the PDF date syntax, after the `+`/`-`/`Z`
indicator: nothing, or two digits, apostrophe, two digits and an
optional trailing apostrophe. -/
def pdfDateTzTail (cs : List Char) : Bool :=
  match cs with
  | [] => true
  | _ =>
    match takeDigits 2 cs with
    | none => false
    | some cs1 =>
      match cs1 with
      | [] => false
      | c :: cs2 =>
        if c == aposChar then
          match takeDigits 2 cs2 with
          | none => false
          | some [] => true
          | some (c2 :: cs4) => c2 == aposChar && cs4.isEmpty
        else false

/-- The nested optional two-digit groups of the PDF date syntax
(month, day, hour, minute, second), then the optional timezone. -/
def pdfDateOpt : Nat → List Char → Bool
  | _, [] => true
  | 0, c :: rest => (c == '+' || c == '-' || c == 'Z') && pdfDateTzTail rest
  | n + 1, cs =>
    match takeDigits 2 cs with
    | some cs1 => pdfDateOpt n cs1
    | none => false

/-- The `D:YYYY…` branch of `isValidPdfDate`. -/
def isPdfNativeDate (cs : List Char) : Bool :=
  match cs with
  | 'D' :: ':' :: rest =>
    match takeDigits 4 rest with
    | some cs1 => pdfDateOpt 5 cs1
    | none => false
  | _ => false

/-- The timezone tail of the ISO branch: nothing, `Z`, or `+`/`-`, two
digits, optional colon, two digits. -/
def isoTzTail (cs : List Char) : Bool :=
  match cs with
  | [] => true
  | c :: rest =>
    if c == 'Z' then rest.isEmpty
    else if c == '+' || c == '-' then
      match takeDigits 2 rest with
      | none => false
      | some (':' :: cs2) =>
        match takeDigits 2 cs2 with
        | some [] => true
        | _ => false
      | some cs1 =>
        match takeDigits 2 cs1 with
        | some [] => true
        | _ => false
    else false

/-- The optional time part of the ISO branch:
`(T\d{2}:\d{2}(:\d{2})? tz?)?` then end of string. -/
def isoTimeTail (cs : List Char) : Bool :=
  match cs with
  | [] => true
  | 'T' :: rest =>
    (match takeDigits 2 rest with
     | some (':' :: cs1) =>
       match takeDigits 2 cs1 with
       | some (':' :: cs2) =>
         match takeDigits 2 cs2 with
         | some cs3 => isoTzTail cs3
         | none => false
       | some cs2 => isoTzTail cs2
       | none => false
     | _ => false)
  | _ => false

/-- The ISO 8601 branch of `isValidPdfDate`:
`\d{4}-\d{2}-\d{2}` then the optional time part. -/
def isIsoDate (cs : List Char) : Bool :=
  match takeDigits 4 cs with
  | some ('-' :: cs1) =>
    match takeDigits 2 cs1 with
    | some ('-' :: cs2) =>
      match takeDigits 2 cs2 with
      | some cs3 => isoTimeTail cs3
      | none => false
    | _ => false
  | _ => false

/-- `isValidPdfDate`: accept either the PDF native date syntax or an
ISO 8601 date. -/
def isValidPdfDate (dateStr : String) : Bool :=
  isPdfNativeDate dateStr.toList || isIsoDate dateStr.toList

/-- Value of a digit list. -/
def digitsVal (cs : List Char) : Nat :=
  cs.foldl (fun a c => a * 10 + (c.toNat - 48)) 0

/-- A model of `Number.parseFloat` on plain decimal strings (optional
sign, integer digits, optional fraction digits — the only shapes PDF
version strings take): `none` models NaN. -/
def parseLeadingFloat (s : String) : Option ℚ :=
  let cs := s.toList
  let signed : ℚ × List Char :=
    match cs with
    | '-' :: r => (-1, r)
    | '+' :: r => (1, r)
    | r => (1, r)
  let intPart := signed.2.takeWhile Char.isDigit
  let rest := signed.2.dropWhile Char.isDigit
  let fracPart :=
    match rest with
    | '.' :: r => r.takeWhile Char.isDigit
    | _ => []
  if intPart.isEmpty && fracPart.isEmpty then none
  else
    some (signed.1 * ((digitsVal intPart : ℚ) +
      (digitsVal fracPart : ℚ) / ((10 : ℚ) ^ fracPart.length)))

/-- Check 1 of `validateMetadata`: title. -/
def metaCheck1 (m : PdfMetadata) (s : VState) : VState :=
  let s := vCheck s
  match m.title with
  | none =>
    vFail s ⟨"error", "META-001", "Title is missing",
      some "A document title is required for PDF/UA and PDF/A compliance. It is used by assistive technology and search engines."⟩
  | some t =>
    vPass s ⟨"info", "META-001", "Title: " ++ "\"" ++ t ++ "\"", none⟩

/-- Check 2: author. -/
def metaCheck2 (m : PdfMetadata) (s : VState) : VState :=
  let s := vCheck s
  match m.author with
  | none =>
    vWarn s ⟨"warning", "META-002", "Author is missing",
      some "Author metadata is recommended for document identification."⟩
  | some a =>
    vPass s ⟨"info", "META-002", "Author: " ++ "\"" ++ a ++ "\"", none⟩

/-- Check 3: creation date, with format validity. -/
def metaCheck3 (m : PdfMetadata) (s : VState) : VState :=
  let s := vCheck s
  match m.creationDate with
  | none =>
    vWarn s ⟨"warning", "META-003", "Creation date is missing",
      some "Creation date metadata is recommended."⟩
  | some d =>
    if isValidPdfDate d then
      vPass s ⟨"info", "META-003", "Creation date: " ++ d, none⟩
    else
      vWarn s ⟨"warning", "META-003",
        "Creation date format may be non-standard: " ++ d,
        some ("PDF date format should follow D:YYYYMMDDHHmmSSOHH" ++
          String.singleton aposChar ++ "mm" ++ String.singleton aposChar ++ ".")⟩

/-- Check 4: modification date. -/
def metaCheck4 (m : PdfMetadata) (s : VState) : VState :=
  let s := vCheck s
  match m.modificationDate with
  | none =>
    vWarn s ⟨"warning", "META-004", "Modification date is missing",
      some "Modification date metadata is recommended for document tracking."⟩
  | some d =>
    vPass s ⟨"info", "META-004", "Modification date: " ++ d, none⟩

/-- Check 5: producer. -/
def metaCheck5 (m : PdfMetadata) (s : VState) : VState :=
  let s := vCheck s
  match m.producer with
  | none =>
    vWarn s ⟨"warning", "META-005", "Producer is missing",
      some "Producer identifies the application that created the PDF. Useful for debugging rendering issues."⟩
  | some p =>
    vPass s ⟨"info", "META-005", "Producer: " ++ "\"" ++ p ++ "\"", none⟩

/-- Check 6: PDF version (the version value only selects the message). -/
def metaCheck6 (m : PdfMetadata) (s : VState) : VState :=
  let s := vCheck s
  match m.pdfVersion with
  | none =>
    vWarn s ⟨"warning", "META-006", "PDF version not detected",
      some "The PDF version could not be determined from the file header."⟩
  | some v =>
    let pre14 :=
      match parseLeadingFloat v with
      | some q => decide (q < 14 / 10)
      | none => false
    if pre14 then
      vPass s ⟨"info", "META-006",
        "PDF version: " ++ v ++ " (pre-1.4; limited feature support)", none⟩
    else
      vPass s ⟨"info", "META-006", "PDF version: " ++ v, none⟩

/-- Check 7: tagged flag. -/
def metaCheck7 (m : PdfMetadata) (s : VState) : VState :=
  let s := vCheck s
  if !m.isTagged then
    vWarn s ⟨"warning", "META-007", "Document is not tagged",
      some "Tagged PDF is required for PDF/UA compliance and recommended for accessibility."⟩
  else
    vPass s ⟨"info", "META-007", "Document is tagged", none⟩

/-- Check 8: subject. -/
def metaCheck8 (m : PdfMetadata) (s : VState) : VState :=
  let s := vCheck s
  match m.subject with
  | none =>
    vWarn s ⟨"warning", "META-008", "Subject is missing",
      some "Subject metadata helps describe the document purpose."⟩
  | some sub =>
    vPass s ⟨"info", "META-008", "Subject: " ++ "\"" ++ sub ++ "\"", none⟩

/-- Check 9: keywords. -/
def metaCheck9 (m : PdfMetadata) (s : VState) : VState :=
  let s := vCheck s
  match m.keywords with
  | none =>
    vWarn s ⟨"warning", "META-009", "Keywords are missing",
      some "Keywords metadata aids document discoverability."⟩
  | some k =>
    vPass s ⟨"info", "META-009", "Keywords: " ++ "\"" ++ k ++ "\"", none⟩

/-- Check 10: encryption. -/
def metaCheck10 (m : PdfMetadata) (s : VState) : VState :=
  let s := vCheck s
  if m.isEncrypted then
    vWarn s ⟨"warning", "META-010", "Document is encrypted",
      some "Encryption may restrict assistive technology access. Ensure accessibility permissions are enabled."⟩
  else
    vPass s ⟨"info", "META-010", "Document is not encrypted", none⟩

/-- The metadata-validation result. -/
structure MetadataValidation where
  totalChecks : Nat
  passed : Nat
  failed : Nat
  warnings : Nat
  issues : List ValidationIssue
  summary : String
deriving Repr, DecidableEq

/-- The severity rollup of `validateMetadata`. -/
def metaSummary (totalChecks passed : Nat) (issues : List ValidationIssue) :
    String :=
  let errorCount := (issues.filter (fun i => i.severity == "error")).length
  let warnCount := (issues.filter (fun i => i.severity == "warning")).length
  if errorCount = 0 && warnCount = 0 then
    "All " ++ toString totalChecks ++ " metadata checks passed."
  else if errorCount = 0 then
    toString passed ++ "/" ++ toString totalChecks ++ " checks passed with " ++
      toString warnCount ++ " warning(s)."
  else
    toString passed ++ "/" ++ toString totalChecks ++ " checks passed, " ++
      toString errorCount ++ " error(s), " ++ toString warnCount ++
      " warning(s)."

/-- The ten fixed checks of `validateMetadata`, run in order on an
initial state. -/
def metaChecksAll (m : PdfMetadata) (s : VState) : VState :=
  metaCheck10 m (metaCheck9 m (metaCheck8 m (metaCheck7 m (metaCheck6 m
    (metaCheck5 m (metaCheck4 m (metaCheck3 m (metaCheck2 m
      (metaCheck1 m s)))))))))

/-- `validateMetadata`: the ten fixed checks run in order, with no
short-circuit (the derived `metadata` echo of the result is omitted:
no claim consumes it). -/
def validateMetadata (m : PdfMetadata) : MetadataValidation :=
  let s := metaChecksAll m ⟨0, 0, 0, 0, []⟩
  { totalChecks := s.totalChecks, passed := s.passed, failed := s.failed,
    warnings := s.warnings, issues := s.issues,
    summary := metaSummary s.totalChecks s.passed s.issues }

-- ─── Page-range parsing (utils/pdf-helpers, parsePageRange) ───

/-- The typed error thrown by the helpers. -/
structure PdfReaderError where
  message : String
  code : String
  suggestion : String
deriving Repr, DecidableEq

/-- JavaScript whitespace (the ASCII part relevant to page strings). -/
def isJsWhitespace (c : Char) : Bool :=
  c == ' ' || c == Char.ofNat 9 || c == Char.ofNat 10 || c == Char.ofNat 13

/-- JavaScript `s.trim()` over the character list. -/
def jsTrim (cs : List Char) : List Char :=
  ((cs.dropWhile isJsWhitespace).reverse.dropWhile isJsWhitespace).reverse

/-- JavaScript `s.split(sep)` for a single-character separator, over
the character list (an empty string yields one empty piece). -/
def charSplit (sep : Char) : List Char → List (List Char)
  | [] => [[]]
  | c :: cs =>
    let r := charSplit sep cs
    if c == sep then [] :: r
    else
      match r with
      | [] => [[c]]
      | g :: gs => (c :: g) :: gs

/-- A model of JavaScript `parseInt(s, 10)`: skip leading whitespace,
read an optional sign and then a non-empty prefix of decimal digits,
ignoring any trailing characters; `none` models NaN. -/
def jsParseInt (s : List Char) : Option Int :=
  let cs := s.dropWhile isJsWhitespace
  let signed : Int × List Char :=
    match cs with
    | '-' :: r => (-1, r)
    | '+' :: r => (1, r)
    | r => (1, r)
  let digits := signed.2.takeWhile Char.isDigit
  if digits.isEmpty then none
  else some (signed.1 * (digitsVal digits : Int))

/-- The consecutive integers from `start` to `last` (the
`for (let i = start; i <= last; i++)` push loop). -/
def intRange (start last : Int) : List Int :=
  (List.range (last + 1 - start).toNat).map (fun k => start + (k : Int))

/-- One part of the comma-separated page specification, after trimming:
a part containing a hyphen is a range whose start is clamped below by 1
and whose end is clamped above by the page count; any other part is a
single page number that must lie in `[1, totalPages]`. -/
def processPart (totalPages : Nat) (trimmed : List Char) :
    Except PdfReaderError (List Int) :=
  if trimmed.contains '-' then
    let pieces := charSplit '-' trimmed
    let startStr := pieces.getD 0 []
    let endStr := pieces.getD 1 []
    match jsParseInt startStr, jsParseInt endStr with
    | some s, some e =>
      Except.ok (intRange (max 1 s) (min (totalPages : Int) e))
    | _, _ =>
      Except.error
        { message := "Invalid page range: " ++ "\"" ++
            String.mk trimmed ++ "\"",
          code := "INVALID_PAGE_RANGE",
          suggestion := "Use format like \"1-5\", \"3\", or \"1,3,5-7\"." }
  else
    match jsParseInt trimmed with
    | some n =>
      if n < 1 || n > (totalPages : Int) then
        Except.error
          { message := "Invalid page number: " ++ String.mk trimmed ++
              " (document has " ++ toString totalPages ++ " pages)",
            code := "INVALID_PAGE_NUMBER",
            suggestion := "Specify a page between 1 and " ++
              toString totalPages ++ "." }
      else Except.ok [n]
    | none =>
      Except.error
        { message := "Invalid page number: " ++ String.mk trimmed ++
            " (document has " ++ toString totalPages ++ " pages)",
          code := "INVALID_PAGE_NUMBER",
          suggestion := "Specify a page between 1 and " ++
            toString totalPages ++ "." }

/-- The part loop of `parsePageRange`, concatenating each part's pages
and propagating the first error. -/
def collectParts (totalPages : Nat) :
    List (List Char) → Except PdfReaderError (List Int)
  | [] => Except.ok []
  | part :: rest =>
    match processPart totalPages (jsTrim part) with
    | Except.error e => Except.error e
    | Except.ok xs =>
      match collectParts totalPages rest with
      | Except.error e => Except.error e
      | Except.ok ys => Except.ok (xs ++ ys)

/-- `[...new Set(result)]`: keep the first occurrence of each value, in
encounter order. -/
def jsSetDedup (l : List Int) : List Int :=
  l.foldl (fun acc x => if acc.contains x then acc else acc ++ [x]) []

/-- `parsePageRange`: a missing or empty specification means all pages
(`none`); otherwise split on commas, process every part, deduplicate
and sort ascending. -/
def parsePageRange (pages : Option String) (totalPages : Nat) :
    Except PdfReaderError (Option (List Int)) :=
  match pages with
  | none => Except.ok none
  | some str =>
    if str.toList.isEmpty then Except.ok none
    else
      match collectParts totalPages (charSplit ',' str.toList) with
      | Except.error e => Except.error e
      | Except.ok result =>
        Except.ok (some ((jsSetDedup result).insertionSort (· ≤ ·)))

/-- Modelled from the spec (§6): an out-of-bound range endpoint clamps
into `[1, totalPages]` on both sides. -/
def claimedClamp (totalPages : Nat) (n : Int) : Int :=
  min (max 1 n) (totalPages : Int)

/-- Modelled from the spec (§6): the pages a `START-END` range denotes
when both endpoints clamp into `[1, totalPages]`. -/
def claimedRangePages (totalPages : Nat) (s e : Int) : List Int :=
  intRange (claimedClamp totalPages s) (claimedClamp totalPages e)

-- ─── Specification predicates and concrete witness inputs ───

/-- The shape every metadata check shares: one more check, exactly one
of the three counters bumped, exactly one issue appended with the
check's code. -/
def MetaCheckSpec (check : PdfMetadata → VState → VState)
    (code : String) : Prop :=
  ∀ m s, (check m s).totalChecks = s.totalChecks + 1 ∧
    (check m s).passed + (check m s).failed + (check m s).warnings =
      s.passed + s.failed + s.warnings + 1 ∧
    (check m s).issues.map (fun i => i.code) =
      s.issues.map (fun i => i.code) ++ [code]

/-- A concrete signature field whose `V` entry is present but is a
number, not a dictionary. -/
def sigFieldNumV : AcroField :=
  { dict := [("FT", PdfObj.name "Sig"), ("V", PdfObj.num 3)],
    fqName := some "SignatureField1", shortName := none }

/-- A concrete structure analysis of a three-page document. -/
def saThreePages : StructureAnalysis :=
  { catalog := [], pageTree := { totalPages := 3, mediaBoxSamples := [] },
    objectStats := { totalObjects := 4, streamCount := 1 },
    isEncrypted := false, pdfVersion := some "1.7" }

/-- A concrete structure analysis of a one-page document. -/
def saOnePage : StructureAnalysis :=
  { catalog := [], pageTree := { totalPages := 1, mediaBoxSamples := [] },
    objectStats := { totalObjects := 4, streamCount := 1 },
    isEncrypted := false, pdfVersion := some "1.7" }

/-- An empty font inventory. -/
def faEmpty : FontAnalysisResult := { fontMap := [], pagesScanned := 0 }

/-- A concrete metadata record with everything absent. -/
def metaZero : PdfMetadata :=
  { title := none, author := none, subject := none, keywords := none,
    creator := none, producer := none, creationDate := none,
    modificationDate := none, pdfVersion := none, isTagged := false,
    isEncrypted := false, hasSignatures := false, fileSize := 100 }

-- ─── Theorems ───

section SignatureClaims

/-- C1, counterexample: on a field whose `V` entry is present but does
not resolve to a dictionary, the analysis still reports
`isSigned = true`, contradicting the claim that `isSigned` holds only
when `V` resolves to a dictionary. -/
theorem c1_isSigned_counterexample :
    (analyzeSignatures [] (some [sigFieldNumV])).fields.map
        (fun i => i.isSigned) = [true] ∧
    dictGet sigFieldNumV.dict "V" = some (PdfObj.num 3) ∧
    asResolvedDict [] (PdfObj.num 3) = none :=
  ⟨rfl, rfl, rfl⟩

/-- C1, amended: the fields returned by the signature analysis are the
per-field results of the loop body, and a signature field's `isSigned`
is true exactly when its raw `V` entry is present — whether or not it
resolves to a dictionary. -/
theorem c1_isSigned_iff_V_present (ctx : PdfCtx) (fs : List AcroField) :
    (analyzeSignatures ctx (some fs)).fields =
      fs.filterMap (processSigField ctx) ∧
    ∀ f i, processSigField ctx f = some i →
      i.isSigned = (dictGet f.dict "V").isSome := by
  refine ⟨rfl, ?_⟩
  intro f i h
  cases hft : lookupMaybeName ctx f.dict "FT" with
  | none => simp [processSigField, hft] at h
  | some ft =>
    by_cases hsig : ft = "Sig"
    · subst hsig
      cases hv : dictGet f.dict "V" with
      | none =>
        simp only [processSigField, hft, if_pos rfl, hv] at h
        cases h
        simp [hv]
      | some v =>
        cases hd : asResolvedDict ctx v with
        | none =>
          simp only [processSigField, hft, if_pos rfl, hv, hd] at h
          cases h
          simp [hv]
        | some sigDict =>
          simp only [processSigField, hft, if_pos rfl, hv, hd] at h
          cases h
          simp [hv]
    · simp [processSigField, hft, hsig] at h

/-- C1, witness: the amended theorem applied to the concrete field
above. -/
theorem c1_isSigned_iff_V_present_witness :
    (analyzeSignatures [] (some [sigFieldNumV])).fields =
      [sigFieldNumV].filterMap (processSigField []) ∧
    ({ fieldName := "SignatureField1", isSigned := true, signerName := none,
       reason := none, location := none, contactInfo := none,
       signingTime := none, filter := none, subFilter := none } :
        SignatureFieldInfo).isSigned =
      (dictGet sigFieldNumV.dict "V").isSome :=
  ⟨(c1_isSigned_iff_V_present [] [sigFieldNumV]).1,
   (c1_isSigned_iff_V_present [] [sigFieldNumV]).2 sigFieldNumV _ rfl⟩

/-- C9, counterexample: on a document without an AcroForm the note is
the AcroForm-absence message, not the cryptographic disclaimer the
claim requires for every document. -/
theorem c9_note_counterexample :
    (analyzeSignatures [] none).note =
      "No AcroForm found in the document." ∧
    (analyzeSignatures [] none).note ≠
      "Cryptographic signature verification is not performed. Only field structure is inspected." := by
  refine ⟨rfl, ?_⟩
  decide

/-- C9, amended: the note is the fixed cryptographic disclaimer
whenever an AcroForm exists; without one it is the fixed
AcroForm-absence message. -/
theorem c9_note_fixed (ctx : PdfCtx) (acroForm : Option (List AcroField)) :
    (analyzeSignatures ctx acroForm).note =
      match acroForm with
      | none => "No AcroForm found in the document."
      | some _ => "Cryptographic signature verification is not performed. Only field structure is inspected." := by
  cases acroForm <;> rfl

end SignatureClaims

section TextClaims

/-- The code comparator and the spec ordering agree pointwise. -/
theorem runLe_eq_specRunLe : runLe = specRunLe := by
  funext a b
  unfold runLe specRunLe
  rcases le_or_lt |a.y - b.y| 2 with h | h
  · rw [if_neg (not_lt.mpr (le_of_eq_of_le (abs_sub_comm b.y a.y) h)),
      if_pos h]
    simp [sub_nonpos]
  · rw [if_pos (lt_of_lt_of_eq h (abs_sub_comm a.y b.y)),
      if_neg (not_le.mpr h)]
    simp [sub_nonpos]

/-- C2: the reading-order reconstruction equals the reference
definition written from the spec (descending-`y`-with-2-unit-tolerance
sort, 2-unit line grouping, space-joined lines, newline-joined page),
and a page with zero runs yields the empty string. -/
theorem c2_extractPageText_spec (items : List TextRun) :
    extractPageText items = specExtractPageText items ∧
    extractPageText [] = "" := by
  constructor
  · unfold extractPageText specExtractPageText
    rw [runLe_eq_specRunLe]
  · rfl

end TextClaims

section ValidationClaims

/-- C6: tag validation of an untagged document reports exactly one
check, zero passed, one failed, and a single error issue with code
TAG-001; checks 2 through 8 are not run (no other code appears). -/
theorem c6_validateTagged_untagged (rootTag : Option TagNode)
    (maxDepth totalElements : Nat) (roleCounts : RoleCounts)
    (imageCount : Nat) :
    let r := validateTagged
      { isTagged := false, rootTag, maxDepth, totalElements, roleCounts }
      imageCount
    r.totalChecks = 1 ∧ r.passed = 0 ∧ r.failed = 1 ∧ r.warnings = 0 ∧
    r.issues.map (fun i => i.code) = ["TAG-001"] ∧
    r.issues.map (fun i => i.severity) = ["error"] :=
  ⟨rfl, rfl, rfl, rfl, rfl, rfl⟩

theorem metaCheck1_spec : MetaCheckSpec metaCheck1 "META-001" := by
  intro m s
  cases h : m.title <;>
    simp [metaCheck1, vCheck, vPass, vFail, vWarn, h] <;> omega

theorem metaCheck2_spec : MetaCheckSpec metaCheck2 "META-002" := by
  intro m s
  cases h : m.author <;>
    simp [metaCheck2, vCheck, vPass, vFail, vWarn, h] <;> omega

theorem metaCheck3_spec : MetaCheckSpec metaCheck3 "META-003" := by
  intro m s
  cases h : m.creationDate with
  | none => simp [metaCheck3, vCheck, vPass, vFail, vWarn, h] <;> omega
  | some d =>
    by_cases hv : isValidPdfDate d <;>
      simp [metaCheck3, vCheck, vPass, vFail, vWarn, h, hv] <;> omega

theorem metaCheck4_spec : MetaCheckSpec metaCheck4 "META-004" := by
  intro m s
  cases h : m.modificationDate <;>
    simp [metaCheck4, vCheck, vPass, vFail, vWarn, h] <;> omega

theorem metaCheck5_spec : MetaCheckSpec metaCheck5 "META-005" := by
  intro m s
  cases h : m.producer <;>
    simp [metaCheck5, vCheck, vPass, vFail, vWarn, h] <;> omega

theorem metaCheck6_spec : MetaCheckSpec metaCheck6 "META-006" := by
  intro m s
  cases h : m.pdfVersion with
  | none => simp [metaCheck6, vCheck, vPass, vFail, vWarn, h] <;> omega
  | some v =>
    cases hq : parseLeadingFloat v with
    | none => simp [metaCheck6, vCheck, vPass, vFail, vWarn, h, hq] <;> omega
    | some q =>
      by_cases hlt : q < 14 / 10 <;>
        simp [metaCheck6, vCheck, vPass, vFail, vWarn, h, hq, hlt] <;> omega

theorem metaCheck7_spec : MetaCheckSpec metaCheck7 "META-007" := by
  intro m s
  cases h : m.isTagged <;>
    simp [metaCheck7, vCheck, vPass, vFail, vWarn, h] <;> omega

theorem metaCheck8_spec : MetaCheckSpec metaCheck8 "META-008" := by
  intro m s
  cases h : m.subject <;>
    simp [metaCheck8, vCheck, vPass, vFail, vWarn, h] <;> omega

theorem metaCheck9_spec : MetaCheckSpec metaCheck9 "META-009" := by
  intro m s
  cases h : m.keywords <;>
    simp [metaCheck9, vCheck, vPass, vFail, vWarn, h] <;> omega

theorem metaCheck10_spec : MetaCheckSpec metaCheck10 "META-010" := by
  intro m s
  cases h : m.isEncrypted <;>
    simp [metaCheck10, vCheck, vPass, vFail, vWarn, h] <;> omega

/-- Composition of the ten check specifications across the whole run. -/
theorem metaChecksAll_spec (m : PdfMetadata) (s : VState) :
    (metaChecksAll m s).totalChecks = s.totalChecks + 10 ∧
    (metaChecksAll m s).passed + (metaChecksAll m s).failed +
        (metaChecksAll m s).warnings =
      s.passed + s.failed + s.warnings + 10 ∧
    (metaChecksAll m s).issues.map (fun i => i.code) =
      s.issues.map (fun i => i.code) ++
        ["META-001", "META-002", "META-003", "META-004", "META-005",
         "META-006", "META-007", "META-008", "META-009", "META-010"] := by
  obtain ⟨a1, b1, c1⟩ := metaCheck1_spec m s
  obtain ⟨a2, b2, c2⟩ := metaCheck2_spec m (metaCheck1 m s)
  obtain ⟨a3, b3, c3⟩ := metaCheck3_spec m (metaCheck2 m (metaCheck1 m s))
  obtain ⟨a4, b4, c4⟩ :=
    metaCheck4_spec m (metaCheck3 m (metaCheck2 m (metaCheck1 m s)))
  obtain ⟨a5, b5, c5⟩ :=
    metaCheck5_spec m
      (metaCheck4 m (metaCheck3 m (metaCheck2 m (metaCheck1 m s))))
  obtain ⟨a6, b6, c6⟩ :=
    metaCheck6_spec m
      (metaCheck5 m
        (metaCheck4 m (metaCheck3 m (metaCheck2 m (metaCheck1 m s)))))
  obtain ⟨a7, b7, c7⟩ :=
    metaCheck7_spec m
      (metaCheck6 m
        (metaCheck5 m
          (metaCheck4 m (metaCheck3 m (metaCheck2 m (metaCheck1 m s))))))
  obtain ⟨a8, b8, c8⟩ :=
    metaCheck8_spec m
      (metaCheck7 m
        (metaCheck6 m
          (metaCheck5 m
            (metaCheck4 m
              (metaCheck3 m (metaCheck2 m (metaCheck1 m s)))))))
  obtain ⟨a9, b9, c9⟩ :=
    metaCheck9_spec m
      (metaCheck8 m
        (metaCheck7 m
          (metaCheck6 m
            (metaCheck5 m
              (metaCheck4 m
                (metaCheck3 m (metaCheck2 m (metaCheck1 m s))))))))
  obtain ⟨a10, b10, c10⟩ :=
    metaCheck10_spec m
      (metaCheck9 m
        (metaCheck8 m
          (metaCheck7 m
            (metaCheck6 m
              (metaCheck5 m
                (metaCheck4 m
                  (metaCheck3 m (metaCheck2 m (metaCheck1 m s)))))))))
  unfold metaChecksAll
  refine ⟨by omega, by omega, ?_⟩
  rw [c10, c9, c8, c7, c6, c5, c4, c3, c2, c1]
  simp

/-- C7: metadata validation always yields exactly ten issues, with
codes META-001 through META-010 in order, each exactly once, and the
three counters sum to the total check count of 10. -/
theorem c7_validateMetadata_fixed_checks (m : PdfMetadata) :
    (validateMetadata m).totalChecks = 10 ∧
    (validateMetadata m).passed + (validateMetadata m).failed +
        (validateMetadata m).warnings = (validateMetadata m).totalChecks ∧
    (validateMetadata m).issues.map (fun i => i.code) =
      ["META-001", "META-002", "META-003", "META-004", "META-005",
       "META-006", "META-007", "META-008", "META-009", "META-010"] := by
  obtain ⟨a, b, c⟩ := metaChecksAll_spec m ⟨0, 0, 0, 0, []⟩
  simp at a b c
  unfold validateMetadata
  simp only []
  refine ⟨a, by omega, by simpa using c⟩

end ValidationClaims

section DiffClaims

/-- C5: every diff entry the structural differ emits has
`status = "match"` exactly when its two stringified values are equal. -/
theorem c5_diff_status_iff (file1 file2 : String)
    (struct1 struct2 : StructureAnalysis)
    (fonts1 fonts2 : FontAnalysisResult) (meta1 meta2 : PdfMetadata) :
    ∀ d ∈ (compareStructure file1 file2 struct1 struct2 fonts1 fonts2
        meta1 meta2).diffs,
      (d.status = "match" ↔ d.file1Value = d.file2Value) := by
  intro d hd
  simp only [compareStructure, addDiff, List.nil_append, List.append_assoc,
    List.cons_append, List.mem_cons, List.mem_append, List.mem_singleton,
    List.not_mem_nil, or_false, false_or] at hd
  rcases hd with rfl | rfl | rfl | rfl | rfl | rfl | rfl | rfl | rfl | rfl | rfl <;>
    (dsimp; split <;> simp_all)

/-- C5, witness: the theorem applied to the Page Count entry of a
concrete three-page versus one-page comparison. -/
theorem c5_diff_status_iff_witness :
    ((⟨"Page Count", "3", "1", "differ"⟩ : StructureDiffEntry).status =
      "match" ↔ ("3" : String) = "1") := by
  have hmem : (⟨"Page Count", "3", "1", "differ"⟩ : StructureDiffEntry) ∈
      (compareStructure "a.pdf" "b.pdf" saThreePages saOnePage faEmpty
        faEmpty metaZero metaZero).diffs := by decide
  exact c5_diff_status_iff "a.pdf" "b.pdf" saThreePages saOnePage faEmpty
    faEmpty metaZero metaZero _ hmem

end DiffClaims

section TagTreeClaims

/-- Adding `n` to one role's count grows the total by `n`. -/
theorem rcTotal_rcAdd (rc : RoleCounts) (k : String) (n : Nat) :
    rcTotal (rcAdd rc k n) = rcTotal rc + n := by
  induction rc with
  | nil => simp [rcAdd, rcGet, rcSet, rcTotal]
  | cons p rest ih =>
    rcases p with ⟨k', v'⟩
    by_cases h : k' = k
    · subst h
      simp [rcAdd, rcGet, rcSet, rcTotal, List.find?]
      omega
    · have hne : (k' == k) = false := by simp [h]
      have hget : rcGet ((k', v') :: rest) k = rcGet rest k := by
        simp [rcGet, List.find?_cons, hne]
      simp only [rcAdd] at ih ⊢
      rw [hget]
      simp only [rcSet, hne, Bool.false_eq_true, if_false]
      simp only [rcTotal, List.map_cons, List.sum_cons] at ih ⊢
      omega

/-- Merging a local role-count map adds its total. -/
theorem rcTotal_rcMerge (local_ : RoleCounts) :
    ∀ rc, rcTotal (rcMerge rc local_) = rcTotal rc + rcTotal local_ := by
  induction local_ with
  | nil => intro rc; simp [rcMerge, rcTotal]
  | cons p rest ih =>
    intro rc
    simp only [rcMerge, List.foldl_cons] at *
    rw [ih (rcAdd rc p.1 p.2), rcTotal_rcAdd]
    simp [rcTotal]
    omega

mutual
/-- Walking a node adds exactly its element count to the role-count
totals. -/
theorem buildTagNode_rcTotal (role : Option String)
    (children : List StructChild) (rc : RoleCounts) :
    rcTotal (buildTagNode role children rc).2 =
      rcTotal rc + countTagElements (buildTagNode role children rc).1 := by
  have ih := buildTagChildren_rcTotal children (rcAdd rc (role.getD "Unknown") 1)
  rcases h : buildTagChildren children (rcAdd rc (role.getD "Unknown") 1)
    with ⟨kids, cc, rc2⟩
  rw [h] at ih
  simp only at ih
  simp only [buildTagNode, h, countTagElements]
  rw [ih, rcTotal_rcAdd]
  omega

/-- Walking a child list adds exactly its element count to the
role-count totals. -/
theorem buildTagChildren_rcTotal (cs : List StructChild) (rc : RoleCounts) :
    rcTotal (buildTagChildren cs rc).2.2 =
      rcTotal rc + countTagElementsList (buildTagChildren cs rc).1 := by
  match cs with
  | [] => simp [buildTagChildren, countTagElementsList]
  | StructChild.elem role cs' :: rest =>
    have ih1 := buildTagNode_rcTotal role cs' rc
    rcases h1 : buildTagNode role cs' rc with ⟨t, rc1⟩
    rw [h1] at ih1
    simp only at ih1
    have ih2 := buildTagChildren_rcTotal rest rc1
    rcases h2 : buildTagChildren rest rc1 with ⟨ts, cc, rc2⟩
    rw [h2] at ih2
    simp only at ih2
    simp only [buildTagChildren, h1, h2, countTagElementsList]
    omega
  | StructChild.content :: rest =>
    have ih := buildTagChildren_rcTotal rest rc
    rcases h : buildTagChildren rest rc with ⟨ts, cc, rc1⟩
    rw [h] at ih
    simp only at ih
    simp only [buildTagChildren, h]
    exact ih
end

/-- The aggregation loop's total-element counter: the accumulator plus
the element counts of all contributed page roots. -/
theorem aggregate_totalElements
    (lst : List (Option (TagNode × RoleCounts))) :
    ∀ acc, (aggregateTagPages lst acc).2.1 =
      acc.2.1 + countTagElementsList
        (lst.filterMap (fun o => o.map (fun p => p.1))) := by
  induction lst with
  | nil => intro acc; simp [aggregateTagPages, countTagElementsList]
  | cons o rest ih =>
    intro acc
    rcases acc with ⟨rc, te, md, rcl⟩
    cases o with
    | none => simp [aggregateTagPages, ih]
    | some pr =>
      rcases pr with ⟨node, localRc⟩
      simp only [aggregateTagPages, List.filterMap_cons, Option.map_some]
      rw [ih]
      simp [countTagElementsList]
      omega

/-- The aggregation loop's root-children list: the accumulator followed
by all contributed page roots, in page order. -/
theorem aggregate_rootChildren
    (lst : List (Option (TagNode × RoleCounts))) :
    ∀ acc, (aggregateTagPages lst acc).2.2.2 =
      acc.2.2.2 ++ lst.filterMap (fun o => o.map (fun p => p.1)) := by
  induction lst with
  | nil => intro acc; simp [aggregateTagPages]
  | cons o rest ih =>
    intro acc
    rcases acc with ⟨rc, te, md, rcl⟩
    cases o with
    | none => simp [aggregateTagPages, ih]
    | some pr =>
      rcases pr with ⟨node, localRc⟩
      simp only [aggregateTagPages, List.filterMap_cons, Option.map_some]
      rw [ih]
      simp

/-- The aggregation loop's merged role counts: the accumulator's total
plus the totals of all contributed local maps. -/
theorem aggregate_rcTotal (lst : List (Option (TagNode × RoleCounts))) :
    ∀ acc, rcTotal (aggregateTagPages lst acc).1 =
      rcTotal acc.1 +
        (lst.filterMap (fun o => o.map (fun p => rcTotal p.2))).sum := by
  induction lst with
  | nil => intro acc; simp [aggregateTagPages]
  | cons o rest ih =>
    intro acc
    rcases acc with ⟨rc, te, md, rcl⟩
    cases o with
    | none => simp [aggregateTagPages, ih]
    | some pr =>
      rcases pr with ⟨node, localRc⟩
      simp only [aggregateTagPages, List.filterMap_cons, Option.map_some]
      rw [ih]
      simp only [rcTotal_rcMerge]
      simp
      omega

/-- C3: for a tagged document, `totalElements` is the sum of the
element counts of all page subtrees — every node of the returned tree
counted once, excluding the synthetic `StructTreeRoot`. -/
theorem c3_totalElements_counts_tree
    (pageTrees : List (Option StructTreeRootLike)) :
    (analyzeTagsFromDoc true pageTrees).totalElements =
      (match (analyzeTagsFromDoc true pageTrees).rootTag with
       | some root => countTagElementsList root.children
       | none => 0) := by
  have h1 := aggregate_totalElements (pageTrees.map pageTagResult)
    ([], 0, 0, [])
  have h2 := aggregate_rootChildren (pageTrees.map pageTagResult)
    ([], 0, 0, [])
  rcases h : aggregateTagPages (pageTrees.map pageTagResult) ([], 0, 0, [])
    with ⟨rc, te, md, rcl⟩
  rw [h] at h1 h2
  simp only [List.nil_append] at h1 h2
  simp only [analyzeTagsFromDoc, Bool.not_true, Bool.false_eq_true,
    if_false, h]
  by_cases hl : rcl.length > 0
  · simp only [hl, if_pos, gt_iff_lt]
    simp [h1, h2]
  · simp only [gt_iff_lt, not_lt, Nat.le_zero] at hl
    have : rcl = [] := List.eq_nil_of_length_eq_zero hl
    subst this
    simp only [List.length_nil, gt_iff_lt, Nat.lt_irrefl, if_false]
    simp [h1, ← h2, countTagElementsList]

/-- Each page's local role-count total equals its subtree's element
count, summed across pages. -/
theorem pageLocals_sum (pageTrees : List (Option StructTreeRootLike)) :
    ((pageTrees.map pageTagResult).filterMap
        (fun o => o.map (fun p => rcTotal p.2))).sum =
      countTagElementsList ((pageTrees.map pageTagResult).filterMap
        (fun o => o.map (fun p => p.1))) := by
  induction pageTrees with
  | nil => simp [countTagElementsList]
  | cons t rest ih =>
    cases t with
    | none => simpa [pageTagResult] using ih
    | some tr =>
      have hb := buildTagNode_rcTotal tr.role tr.children []
      have h0 : rcTotal ([] : RoleCounts) = 0 := rfl
      rw [h0] at hb
      simp [pageTagResult, countTagElementsList, List.filterMap_map] at ih ⊢
      omega

/-- C10: for a tagged document the role counts sum to `totalElements`:
every element contributes one increment to exactly one role, content
children to none. -/
theorem c10_roleCounts_sum_eq_totalElements
    (pageTrees : List (Option StructTreeRootLike)) :
    rcTotal (analyzeTagsFromDoc true pageTrees).roleCounts =
      (analyzeTagsFromDoc true pageTrees).totalElements := by
  have h1 := aggregate_totalElements (pageTrees.map pageTagResult)
    ([], 0, 0, [])
  have h3 := aggregate_rcTotal (pageTrees.map pageTagResult) ([], 0, 0, [])
  rcases h : aggregateTagPages (pageTrees.map pageTagResult) ([], 0, 0, [])
    with ⟨rc, te, md, rcl⟩
  rw [h] at h1 h3
  simp only at h1 h3
  simp only [analyzeTagsFromDoc, Bool.not_true, Bool.false_eq_true,
    if_false, h]
  have h0 : rcTotal ([] : RoleCounts) = 0 := rfl
  rw [h0] at h3
  rw [pageLocals_sum pageTrees] at h3
  by_cases hl : rcl.length > 0 <;> simp [hl, h1, h3]

end TagTreeClaims

section PageRangeClaims

/-- The JavaScript set spread keeps lists duplicate-free. -/
theorem jsSetDedup_nodup (l : List Int) : (jsSetDedup l).Nodup := by
  have general : ∀ (xs : List Int) (acc : List Int), acc.Nodup →
      (xs.foldl (fun acc x => if acc.contains x then acc else acc ++ [x])
        acc).Nodup := by
    intro xs
    induction xs with
    | nil => intro acc h; simpa using h
    | cons x rest ih =>
      intro acc h
      simp only [List.foldl_cons]
      by_cases hc : acc.contains x
      · rw [if_pos hc]
        exact ih acc h
      · rw [if_neg hc]
        refine ih (acc ++ [x]) ?_
        have hx : x ∉ acc := by simpa using hc
        simp [List.nodup_append, h, hx]
  exact general l [] List.nodup_nil

/-- C8, counterexample: the range `5-9` against a 3-page document: the
code leaves the start endpoint unclamped from above and produces no
pages, while clamping both endpoints into `[1, totalPages]`, as the
claim states, would produce page 3. -/
theorem c8_parsePageRange_counterexample :
    parsePageRange (some "5-9") 3 = Except.ok (some []) ∧
    claimedRangePages 3 5 9 = [3] := by
  refine ⟨rfl, by decide⟩

/-- C8, amended: a `START-END` range clamps its start from below by 1
and its end from above by `totalPages` (only — a start beyond the page
count is not pulled down, leaving an empty range); a range with an
unparsable endpoint raises `INVALID_PAGE_RANGE`; a single page number
that is unparsable or outside `[1, totalPages]` raises
`INVALID_PAGE_NUMBER`; a successful result is deduplicated and sorted
ascending. -/
theorem c8_parsePageRange_behavior :
    (∀ (totalPages : Nat) (trimmed : List Char) (s e : Int),
      trimmed.contains '-' = true →
      jsParseInt ((charSplit '-' trimmed).getD 0 []) = some s →
      jsParseInt ((charSplit '-' trimmed).getD 1 []) = some e →
      processPart totalPages trimmed =
        Except.ok (intRange (max 1 s) (min (totalPages : Int) e))) ∧
    (∀ (totalPages : Nat) (trimmed : List Char),
      trimmed.contains '-' = true →
      (jsParseInt ((charSplit '-' trimmed).getD 0 []) = none ∨
        jsParseInt ((charSplit '-' trimmed).getD 1 []) = none) →
      ∃ err, processPart totalPages trimmed = Except.error err ∧
        err.code = "INVALID_PAGE_RANGE") ∧
    (∀ (totalPages : Nat) (trimmed : List Char),
      trimmed.contains '-' = false →
      (jsParseInt trimmed = none ∨
        ∃ n, jsParseInt trimmed = some n ∧
          (n < 1 ∨ n > (totalPages : Int))) →
      ∃ err, processPart totalPages trimmed = Except.error err ∧
        err.code = "INVALID_PAGE_NUMBER") ∧
    (∀ (pages : Option String) (totalPages : Nat) (l : List Int),
      parsePageRange pages totalPages = Except.ok (some l) →
      l.Nodup ∧ l.Sorted (· ≤ ·)) := by
  refine ⟨?_, ?_, ?_, ?_⟩
  · intro totalPages trimmed s e hc hs he
    simp only [processPart, hc, if_pos, hs, he]
  · intro totalPages trimmed hc hor
    have herr : processPart totalPages trimmed = Except.error
        { message := "Invalid page range: " ++ "\"" ++
            String.mk trimmed ++ "\"",
          code := "INVALID_PAGE_RANGE",
          suggestion := "Use format like \"1-5\", \"3\", or \"1,3,5-7\"." } := by
      rcases hor with h | h
      · simp only [processPart, hc, if_pos, h]
      · simp only [processPart, hc, if_pos, h]
        cases jsParseInt ((charSplit '-' trimmed).getD 0 []) <;> rfl
    exact ⟨_, herr, rfl⟩
  · intro totalPages trimmed hc hor
    have herr : processPart totalPages trimmed = Except.error
        { message := "Invalid page number: " ++ String.mk trimmed ++
            " (document has " ++ toString totalPages ++ " pages)",
          code := "INVALID_PAGE_NUMBER",
          suggestion := "Specify a page between 1 and " ++
            toString totalPages ++ "." } := by
      rcases hor with h | ⟨n, hn, hb⟩
      · simp only [processPart, hc, Bool.false_eq_true, if_false, h]
      · simp only [processPart, hc, Bool.false_eq_true, if_false, hn]
        rw [if_pos]
        rcases hb with hb | hb <;> simp [hb]
    exact ⟨_, herr, rfl⟩
  · intro pages totalPages l h
    cases pages with
    | none => simp [parsePageRange] at h
    | some str =>
      simp only [parsePageRange] at h
      by_cases hstr : str.toList.isEmpty
      · rw [if_pos hstr] at h
        simp at h
      · rw [if_neg hstr] at h
        cases hcp : collectParts totalPages (charSplit ',' str.toList) with
        | error e =>
          rw [hcp] at h
          simp at h
        | ok result =>
          rw [hcp] at h
          have hl : (jsSetDedup result).insertionSort (· ≤ ·) = l := by
            simpa using h
          rw [← hl]
          constructor
          · exact ((List.perm_insertionSort (· ≤ ·)
              (jsSetDedup result)).nodup_iff).mpr (jsSetDedup_nodup result)
          · exact List.sorted_insertionSort (· ≤ ·) (jsSetDedup result)

/-- C8, witness: the amended theorem applied to a valid range `1-2`, a
non-numeric single part `abc`, and the parse of `1,3` in a 3-page
document. -/
theorem c8_parsePageRange_behavior_witness :
    processPart 3 "1-2".toList =
      Except.ok (intRange (max 1 1) (min (3 : Int) 2)) ∧
    (∃ err, processPart 3 "abc".toList = Except.error err ∧
      err.code = "INVALID_PAGE_NUMBER") ∧
    (([1, 3] : List Int).Nodup ∧
      ([1, 3] : List Int).Sorted (· ≤ ·)) := by
  refine ⟨?_, ?_, ?_⟩
  · exact c8_parsePageRange_behavior.1 3 "1-2".toList 1 2 (by decide)
      (by decide) (by decide)
  · exact c8_parsePageRange_behavior.2.2.1 3 "abc".toList (by decide)
      (Or.inl (by decide))
  · exact c8_parsePageRange_behavior.2.2.2 (some "1,3") 3 [1, 3] rfl

end PageRangeClaims

section FontClaims

/-- Effect of one map update on a lookup: the named record gains the
page (if new), every other record is untouched; a missing record is
created with just this page. -/
theorem fontMapPages_update (m : FontMap) (fi : FontInfo) (p : Nat)
    (k : String) :
    fontMapPages (fontMapUpdate m fi p) k =
      (if k = fi.name then
        match fontMapPages m k with
        | none => some [p]
        | some l => some (if l.contains p then l else l ++ [p])
      else fontMapPages m k) := by
  induction m with
  | nil =>
    by_cases h : k = fi.name
    · subst h
      simp [fontMapUpdate, fontMapPages, List.find?]
    · have hne : (fi.name == k) = false := by simp [Ne.symm h]
      simp [fontMapUpdate, fontMapPages, List.find?, hne, h]
  | cons hd rest ih =>
    rcases hd with ⟨k', info⟩
    by_cases hk' : k' = fi.name
    · subst hk'
      by_cases hk : k = fi.name
      · subst hk
        simp [fontMapUpdate, fontMapPages, List.find?]
        split <;> rfl
      · have h1 : (fi.name == k) = false := by simp [Ne.symm hk]
        simp [fontMapUpdate, fontMapPages, List.find?_cons, hk, h1]
    · have hne : (k' == fi.name) = false := by simp [hk']
      by_cases hk : k = k'
      · have hkk := hk.symm
        subst hkk
        rw [if_neg hk']
        simp [fontMapUpdate, hne, fontMapPages, List.find?_cons]
      · have hne2 : (k' == k) = false := by simp [Ne.symm hk]
        simp only [fontMapUpdate, hne, Bool.false_eq_true, if_false]
        simp only [fontMapPages, List.find?_cons, hne2, cond_false] at ih ⊢
        exact ih

/-- Effect of one map update on the key list: unchanged when the name
is already present, otherwise the name is appended. -/
theorem fontMapUpdate_keys (m : FontMap) (fi : FontInfo) (p : Nat) :
    (fontMapUpdate m fi p).map Prod.fst =
      (if (m.map Prod.fst).contains fi.name then m.map Prod.fst
       else m.map Prod.fst ++ [fi.name]) := by
  induction m with
  | nil => simp [fontMapUpdate]
  | cons hd rest ih =>
    rcases hd with ⟨k', info⟩
    by_cases hk' : k' = fi.name
    · subst hk'
      simp [fontMapUpdate]
    · have hne : (k' == fi.name) = false := by simp [hk']
      have hne3 : (fi.name == k') = false := by simp [Ne.symm hk']
      simp only [fontMapUpdate, hne, Bool.false_eq_true, if_false,
        List.map_cons, List.contains_cons, hne3, Bool.false_or]
      rw [ih]
      by_cases hc : (List.map Prod.fst rest).contains fi.name = true
      · rw [if_pos hc, if_pos hc]
      · rw [if_neg hc, if_neg hc]
        simp

/-- Folding one page's font entries: a record keyed by one of the
page's resolved names gains the page number (once); every other record
is untouched; missing records for resolved names are created. -/
theorem foldEntries_pages (ctx : PdfCtx) (p : Nat)
    (entries : List (String × PdfObj)) :
    ∀ (m : FontMap) (k : String),
      fontMapPages (entries.foldl (processFontEntry ctx p) m) k =
        (match fontMapPages m k with
         | some l =>
           some (if ((entryFontNames ctx entries).contains k &&
                     !l.contains p) then l ++ [p] else l)
         | none =>
           if (entryFontNames ctx entries).contains k then some [p]
           else none) := by
  induction entries with
  | nil =>
    intro m k
    cases h : fontMapPages m k <;> simp [entryFontNames, h]
  | cons e rest ih =>
    intro m k
    cases hr : resolveFontEntry ctx e.1 e.2 with
    | none =>
      have hnames : entryFontNames ctx (e :: rest) = entryFontNames ctx rest := by
        simp [entryFontNames, List.filterMap_cons, hr]
      simp only [List.foldl_cons, processFontEntry, hr, hnames]
      exact ih m k
    | some fi =>
      have hnames : entryFontNames ctx (e :: rest) =
          fi.name :: entryFontNames ctx rest := by
        simp [entryFontNames, List.filterMap_cons, hr]
      simp only [List.foldl_cons, processFontEntry, hr, hnames]
      rw [ih (fontMapUpdate m fi p) k, fontMapPages_update m fi p k]
      by_cases hk : k = fi.name
      · subst hk
        rw [if_pos rfl]
        cases hm : fontMapPages m fi.name with
        | none => simp [hm]
        | some l => by_cases hp : p ∈ l <;> simp [hm, hp]
      · have hbeq : (k == fi.name) = false := by simp [hk]
        rw [if_neg hk]
        cases hm : fontMapPages m k <;>
          simp [List.contains_cons, hbeq, hm, hk]

/-- Folding one page's font entries keeps the key list duplicate-free. -/
theorem foldEntries_keys_nodup (ctx : PdfCtx) (p : Nat)
    (entries : List (String × PdfObj)) :
    ∀ (m : FontMap), (m.map Prod.fst).Nodup →
      ((entries.foldl (processFontEntry ctx p) m).map Prod.fst).Nodup := by
  induction entries with
  | nil => intro m h; simpa using h
  | cons e rest ih =>
    intro m h
    simp only [List.foldl_cons, processFontEntry]
    cases hr : resolveFontEntry ctx e.1 e.2 with
    | none => exact ih m h
    | some fi =>
      refine ih (fontMapUpdate m fi p) ?_
      rw [fontMapUpdate_keys]
      by_cases hc : (m.map Prod.fst).contains fi.name = true
      · rw [if_pos hc]; exact h
      · rw [if_neg hc]
        have hx : fi.name ∉ m.map Prod.fst := by simpa using hc
        simp [List.nodup_append, h, hx]

/-- Every page number the reference definition lists from index
`pageIdx` exceeds `pageIdx`. -/
theorem pagesUsingFrom_lb (ctx : PdfCtx) (name : String)
    (pages : List PageNode) :
    ∀ (i : Nat), ∀ x ∈ pagesUsingFrom ctx name pages i, i + 1 ≤ x := by
  induction pages with
  | nil => intro i x hx; simp [pagesUsingFrom] at hx
  | cons page rest ih =>
    intro i x hx
    by_cases hc : name ∈ pageFontNames ctx page
    · simp only [pagesUsingFrom, List.mem_append] at hx
      rcases hx with hx | hx
      · simp [hc] at hx
        omega
      · have := ih (i + 1) x hx
        omega
    · simp only [pagesUsingFrom, List.mem_append] at hx
      rcases hx with hx | hx
      · simp [hc] at hx
      · have := ih (i + 1) x hx
        omega

/-- The reference page list is duplicate-free. -/
theorem pagesUsingFrom_nodup (ctx : PdfCtx) (name : String)
    (pages : List PageNode) :
    ∀ (i : Nat), (pagesUsingFrom ctx name pages i).Nodup := by
  induction pages with
  | nil => intro i; simp [pagesUsingFrom]
  | cons page rest ih =>
    intro i
    by_cases hc : name ∈ pageFontNames ctx page
    · have hcb : (pageFontNames ctx page).contains name = true := by
        simpa using hc
      simp only [pagesUsingFrom, hcb, if_pos, List.singleton_append,
        List.nodup_cons]
      refine ⟨fun hmem => ?_, ih (i + 1)⟩
      have := pagesUsingFrom_lb ctx name rest (i + 1) _ hmem
      omega
    · simpa [pagesUsingFrom, hc] using ih (i + 1)

/-- The page scan, started at any index over a map whose recorded pages
are bounded by that index: keys stay duplicate-free and each name's
recorded pages extend by exactly the pages that use it, in order. -/
theorem scanFontPages_pages (ctx : PdfCtx) (pages : List PageNode) :
    ∀ (i : Nat) (m : FontMap),
      (m.map Prod.fst).Nodup →
      (∀ k l, fontMapPages m k = some l → ∀ x ∈ l, x ≤ i) →
      (((scanFontPages ctx pages i m).map Prod.fst).Nodup ∧
       ∀ k, fontMapPages (scanFontPages ctx pages i m) k =
         (match fontMapPages m k with
          | some l => some (l ++ pagesUsingFrom ctx k pages i)
          | none =>
            if pagesUsingFrom ctx k pages i = [] then none
            else some (pagesUsingFrom ctx k pages i))) := by
  induction pages with
  | nil =>
    intro i m h1 h2
    refine ⟨h1, fun k => ?_⟩
    cases h : fontMapPages m k <;> simp [scanFontPages, pagesUsingFrom, h]
  | cons page rest ih =>
    intro i m h1 h2
    have hchar := foldEntries_pages ctx (i + 1) (pageFontEntries ctx page)
    have h1' : (((pageFontEntries ctx page).foldl
        (processFontEntry ctx (i + 1)) m).map Prod.fst).Nodup :=
      foldEntries_keys_nodup ctx (i + 1) (pageFontEntries ctx page) m h1
    have h2' : ∀ k l, fontMapPages ((pageFontEntries ctx page).foldl
        (processFontEntry ctx (i + 1)) m) k = some l →
        ∀ x ∈ l, x ≤ i + 1 := by
      intro k l hl x hx
      rw [hchar m k] at hl
      cases hm : fontMapPages m k with
      | none =>
        rw [hm] at hl
        by_cases hcm :
            (entryFontNames ctx (pageFontEntries ctx page)).contains k = true
        · rw [if_pos hcm] at hl
          simp only [Option.some.injEq] at hl
          subst hl
          simp at hx
          omega
        · rw [if_neg hcm] at hl
          cases hl
      | some l0 =>
        rw [hm] at hl
        simp only [Option.some.injEq] at hl
        subst hl
        by_cases hcc :
            ((entryFontNames ctx (pageFontEntries ctx page)).contains k &&
              !l0.contains (i + 1)) = true
        · rw [if_pos hcc] at hx
          simp only [List.mem_append, List.mem_singleton] at hx
          rcases hx with hx | hx
          · have := h2 k l0 hm x hx
            omega
          · omega
        · rw [if_neg hcc] at hx
          have := h2 k l0 hm x hx
          omega
    obtain ⟨g1, g2⟩ := ih (i + 1)
      ((pageFontEntries ctx page).foldl (processFontEntry ctx (i + 1)) m)
      h1' h2'
    refine ⟨g1, fun k => ?_⟩
    have hstep : fontMapPages (scanFontPages ctx (page :: rest) i m) k =
        fontMapPages (scanFontPages ctx rest (i + 1)
          ((pageFontEntries ctx page).foldl (processFontEntry ctx (i + 1)) m))
          k := rfl
    rw [hstep, g2 k, hchar m k]
    have hpn : pageFontNames ctx page =
        entryFontNames ctx (pageFontEntries ctx page) := rfl
    cases hm : fontMapPages m k with
    | some l =>
      have hnp : l.contains (i + 1) = false := by
        by_cases hcx : (i + 1) ∈ l
        · exfalso
          have := h2 k l hm _ hcx
          omega
        · simpa using hcx
      simp only [pagesUsingFrom, hpn, hnp, Bool.not_false, Bool.and_true]
      by_cases hcm : k ∈ entryFontNames ctx (pageFontEntries ctx page) <;>
        simp [hcm]
    | none =>
      simp only [pagesUsingFrom, hpn]
      by_cases hcm : k ∈ entryFontNames ctx (pageFontEntries ctx page)
      · simp [hcm]
      · by_cases hpe : pagesUsingFrom ctx k rest (i + 1) = [] <;>
          simp [hcm, hpe]

/-- A map lookup misses exactly when the name is not a key. -/
theorem fontMapPages_eq_none_iff (m : FontMap) (k : String) :
    fontMapPages m k = none ↔ k ∉ m.map Prod.fst := by
  rw [show fontMapPages m k =
    Option.map (fun p => p.2.pagesUsed) (m.find? (fun p => p.1 == k))
    from rfl, Option.map_eq_none', List.find?_eq_none]
  constructor
  · intro h hk
    rcases List.mem_map.mp hk with ⟨e, he, rfl⟩
    exact h e he (by simp)
  · intro h e he hbeq
    exact h (List.mem_map.mpr ⟨e, he, by simpa using hbeq⟩)

/-- C4: the font inventory holds at most one record per base-font name
(keys are duplicate-free); the record for a name exists exactly when
some page uses the name, its `pagesUsed` is precisely the ascending,
duplicate-free list of the 1-based numbers of the pages whose font
resources resolve to that name, and the number of records for a name is
1 when it is used and 0 otherwise. -/
theorem c4_font_inventory_merges (ctx : PdfCtx) (pages : List PageNode) :
    (((analyzeFontsWithPdfLib ctx pages).fontMap.map Prod.fst).Nodup) ∧
    (∀ name,
      fontMapPages (analyzeFontsWithPdfLib ctx pages).fontMap name =
        (if pagesUsingFrom ctx name pages 0 = [] then none
         else some (pagesUsingFrom ctx name pages 0))) ∧
    (∀ name, (pagesUsingFrom ctx name pages 0).Nodup) ∧
    (∀ name,
      ((analyzeFontsWithPdfLib ctx pages).fontMap.filter
          (fun e => e.1 == name)).length =
        (if pagesUsingFrom ctx name pages 0 = [] then 0 else 1)) := by
  obtain ⟨g1, g2⟩ := scanFontPages_pages ctx pages 0 []
    (by simp)
    (by intro k l h; simp [fontMapPages, List.find?] at h)
  have hfm : (analyzeFontsWithPdfLib ctx pages).fontMap =
      scanFontPages ctx pages 0 [] := rfl
  have glook : ∀ name,
      fontMapPages (analyzeFontsWithPdfLib ctx pages).fontMap name =
        (if pagesUsingFrom ctx name pages 0 = [] then none
         else some (pagesUsingFrom ctx name pages 0)) := by
    intro name
    rw [hfm, g2 name]
    have hnone : fontMapPages [] name = none := rfl
    rw [hnone]
  refine ⟨hfm ▸ g1, glook,
    fun name => pagesUsingFrom_nodup ctx name pages 0, fun name => ?_⟩
  rw [← List.countP_eq_length_filter]
  have hc : List.countP (fun e => e.1 == name)
      (analyzeFontsWithPdfLib ctx pages).fontMap =
      List.countP (fun x => x == name)
        ((analyzeFontsWithPdfLib ctx pages).fontMap.map Prod.fst) := by
    rw [List.countP_map]
    rfl
  rw [hc]
  have hcount : List.countP (fun x => x == name)
      ((analyzeFontsWithPdfLib ctx pages).fontMap.map Prod.fst) =
      List.count name ((analyzeFontsWithPdfLib ctx pages).fontMap.map
        Prod.fst) := by
    simp [List.count]
  rw [hcount]
  by_cases hpe : pagesUsingFrom ctx name pages 0 = []
  · rw [if_pos hpe]
    have hn : fontMapPages (analyzeFontsWithPdfLib ctx pages).fontMap name =
        none := by rw [glook name, if_pos hpe]
    exact List.count_eq_zero_of_not_mem
      ((fontMapPages_eq_none_iff _ name).mp hn)
  · rw [if_neg hpe]
    have hs : fontMapPages (analyzeFontsWithPdfLib ctx pages).fontMap name ≠
        none := by
      rw [glook name, if_neg hpe]
      exact Option.some_ne_none _
    have hmem : name ∈ (analyzeFontsWithPdfLib ctx pages).fontMap.map
        Prod.fst := by
      by_contra hcon
      exact hs ((fontMapPages_eq_none_iff _ name).mpr hcon)
    exact List.count_eq_one_of_mem (hfm ▸ g1) hmem

end FontClaims
